import Mathlib

/-!
Verification of the DFC cash-flow engine of `app.py` (Safári ERP Financeiro).

The engine's pure core is embedded shallowly:
* account-code utilities (`normalizar_codigo`, `codigo_blocos`, `codigo_pais`,
  `eh_sintetico`, app.py:117-140), with strings handled at the character-list
  level (Python `str.strip()` / `str.split(".")` become `dropWhile` /
  `rdropWhile` over whitespace and `splitOnP (· == '.')`);
* the data rows the engine reads (`plano_contas`, `lancamentos`, `saldos`) and
  the five persisted configuration settings;
* the live "DFC - Caixa" view (app.py:881-1111) and the "Auditoria DFC"
  simulation (app.py:1228-1334), each as a function from inputs to an optional
  report, `none` modelling `st.stop()` / the warnings that abort a run;
* the hierarchy inference and roll-up of the view (app.py:1028-1074), with the
  recursion of `total_no` bounded by fuel (the recursion depth is bounded by
  the number of `"00"` blocks of a code, proved below).

Monetary values are rationals (the source sums finitely many decimal floats);
dates are integers (day numbers; the source compares ISO date strings, whose
order is the date order).
-/

namespace Safari

/-! ## Account-code utilities (app.py:117-140) -/

/-- Source app.py:117-119, `normalizar_codigo`: Python `str(cod).strip()` —
remove leading and trailing whitespace, embedded at the character-list level. -/
def normalizar_codigo (cod : String) : String :=
  ⟨List.rdropWhile Char.isWhitespace (cod.data.dropWhile Char.isWhitespace)⟩

/-- Source app.py:121-125, `codigo_blocos`: split the normalized code on `"."`,
right-pad with `"00"` up to four segments, and keep the first four. -/
def codigo_blocos (cod : String) : List String :=
  let p := ((normalizar_codigo cod).data.splitOnP (· == '.')).map String.mk
  (p ++ List.replicate (4 - p.length) "00").take 4

/-- Source app.py:127-136, `codigo_pais`: the candidate padded ancestors of a
code, in decreasing specificity, each guarded by the corresponding segment
being different from `"00"`. -/
def codigo_pais (cod : String) : List String :=
  match codigo_blocos cod with
  | [a, b, c, d] =>
    (if d ≠ "00" then [a ++ "." ++ b ++ "." ++ c ++ ".00"] else []) ++
    (if c ≠ "00" then [a ++ "." ++ b ++ ".00.00"] else []) ++
    (if b ≠ "00" then [a ++ ".00.00.00"] else [])
  | _ => []

/-- Source app.py:138-140, `eh_sintetico`: a code whose fourth block is `"00"`
is synthetic (a grouping node that accepts no postings). -/
def eh_sintetico (cod : String) : Bool :=
  match codigo_blocos cod with
  | [_, _, _, d] => d == "00"
  | _ => false

/-- Source app.py:200 (`transformar_plano`): the nature derived on import —
`"Entrada"` iff the code starts with `"1"` (Python `startswith("1")`, i.e. the
first character is `'1'`), otherwise `"Saída"`. -/
def natureza_derivada (cod : String) : String :=
  if cod.data.head? == some '1' then "Entrada" else "Saída"

/-! ## Data rows and configuration -/

/-- A row of `plano_contas` as the DFC engine reads it (app.py:1028). -/
structure Conta where
  codigo : String
  descricao : String
  natureza : String
deriving DecidableEq, Repr

/-- A row of `lancamentos` as the engine reads it (app.py:909-923).  The
payment date is an abstract day number; rows whose date does not parse are
dropped upstream of the engine (`dropna`, app.py:930/1251), so dates here are
always present. -/
structure Lancamento where
  data_pagamento : Int
  valor : ℚ
  status : String
  plano_conta_id : String
deriving DecidableEq, Repr

/-- A row of `saldos` (app.py:262-271): autoincrement insertion id, reference
date, tipo (`"Inicial"` or `"Final"`), amount. -/
structure Saldo where
  id : Nat
  data_referencia : Int
  tipo : String
  valor : ℚ
deriving DecidableEq, Repr

/-- The five persisted engine settings (app.py:889-893 / 1176-1214). -/
structure Config where
  modelo : String
  considerar_somente_conciliados : Bool
  usar_saldo_lancado : Bool
  usar_saldo_calculado : Bool
  forcar_saida_negativa : Bool
deriving DecidableEq, Repr

/-- The five enumerated formula identifiers (app.py:1200-1206). -/
def formulas_conhecidas : List String :=
  ["Saldo + Entradas - Saídas",
   "Saldo + Entradas + Saídas",
   "Saldo + (Entradas - Saídas)",
   "Saldo + Somente Entradas",
   "Saldo + Somente Saídas"]

/-! ## The joined movement rows and the filters -/

/-- One row of the SQL join `lancamentos JOIN plano_contas ON
l.plano_conta_id = p.codigo` (app.py:909-923 and 1234-1245). -/
structure Mov where
  data_pagamento : Int
  valor : ℚ
  status : String
  codigo : String
  natureza : String
deriving DecidableEq, Repr

/-- The join itself: every pairing of a `lancamentos` row with a
`plano_contas` row of equal code (inner join, so orphaned entries drop out). -/
def movimentos (plano : List Conta) (lancs : List Lancamento) : List Mov :=
  lancs.flatMap (fun l =>
    (plano.filter (fun p => p.codigo == l.plano_conta_id)).map (fun p =>
      { data_pagamento := l.data_pagamento, valor := l.valor, status := l.status,
        codigo := p.codigo, natureza := p.natureza }))

/-- Source app.py:932-936 / 1254-1258: when `considerar_somente_conciliados`
is on, keep an Entrada row iff its status is `Recebido` and a Saída row iff
its status is `Pago`; otherwise keep everything. -/
def filtro_conciliados (somente : Bool) (movs : List Mov) : List Mov :=
  if somente then
    movs.filter (fun m =>
      (m.natureza == "Entrada" && m.status == "Recebido") ||
      (m.natureza == "Saída" && m.status == "Pago"))
  else movs

/-- Source app.py:942 / 1300-1303: the `[start, end]` inclusive date-range
restriction on the payment date. -/
def filtro_periodo (dIni dFim : Int) (movs : List Mov) : List Mov :=
  movs.filter (fun m => decide (dIni ≤ m.data_pagamento) && decide (m.data_pagamento ≤ dFim))

/-- Sum of the `valor` column of a list of movement rows. -/
def soma_valores (movs : List Mov) : ℚ := (movs.map (·.valor)).sum

/-- Source app.py:985-988 / 1305: the flat period total of Entrada rows. -/
def total_entradas_de (movs : List Mov) : ℚ :=
  soma_valores (movs.filter (fun m => m.natureza == "Entrada"))

/-- Source app.py:986-989 / 1306: the flat period total of Saída rows, raw
(sign not yet normalized). -/
def total_saidas_raw_de (movs : List Mov) : ℚ :=
  soma_valores (movs.filter (fun m => m.natureza == "Saída"))

/-- Source app.py:990 / 1308-1311: sign normalization of the outflow total —
`-abs` under `forcar_saida_negativa`, plain negation otherwise. -/
def ajuste_saida (forcar : Bool) (x : ℚ) : ℚ :=
  if forcar then -|x| else -x

/-! ## Opening-balance resolution -/

/-- Source app.py:954-958 / 1280-1283 (`WHERE` clause): the `saldos` rows of
tipo `Inicial` whose reference date is at or before the period start. -/
def saldos_iniciais_ate (saldos : List Saldo) (d : Int) : List Saldo :=
  saldos.filter (fun s => s.tipo == "Inicial" && decide (s.data_referencia ≤ d))

/-- One step of the scan for `ORDER BY data_referencia DESC, id DESC LIMIT 1`:
keep the row maximal in the lexicographic key (reference date, insertion id). -/
def passo_view (acc : Option Saldo) (s : Saldo) : Option Saldo :=
  match acc with
  | none => some s
  | some t =>
    if t.data_referencia < s.data_referencia ∨
       (t.data_referencia = s.data_referencia ∧ t.id < s.id) then some s else some t

/-- Source app.py:952-963, the view's query
`ORDER BY data_referencia DESC, id DESC LIMIT 1`: the row maximal in the
lexicographic key (reference date, then insertion id), by a single scan. -/
def ultimo_saldo_view (saldos : List Saldo) : Option Saldo :=
  saldos.foldl passo_view none

/-- One step of the scan for `ORDER BY data_referencia DESC LIMIT 1`: keep a
row with maximal reference date. -/
def passo_sim (acc : Option Saldo) (s : Saldo) : Option Saldo :=
  match acc with
  | none => some s
  | some t =>
    if t.data_referencia < s.data_referencia then some s else some t

/-- Source app.py:1278-1287, the simulation's query
`ORDER BY data_referencia DESC LIMIT 1`: a row with maximal reference date.
SQLite leaves unspecified which row is returned when several share that
maximal date; modelled as the first stored such row. -/
def ultimo_saldo_sim (saldos : List Saldo) : Option Saldo :=
  saldos.foldl passo_sim none

/-- Source app.py:972-974 / 1293-1296, `valor_ajustado`: `+valor` when the
row's nature is `Entrada`, `-valor` otherwise. -/
def valor_ajustado (m : Mov) : ℚ :=
  if m.natureza == "Entrada" then m.valor else -m.valor

/-- Source app.py:969-975 / 1291-1297: the computed opening balance — the
signed sum of the admissible rows paid strictly before the period start. -/
def saldo_calculado_historico (mov : List Mov) (dIni : Int) : ℚ :=
  ((mov.filter (fun m => decide (m.data_pagamento < dIni))).map valor_ajustado).sum

/-- The amount of an optionally found snapshot, 0 when none was found
(app.py:964-966 adds the amount only when the query returned a row). -/
def valor_ou_zero (m : Option Saldo) : ℚ :=
  match m with
  | some s => s.valor
  | none => 0

/-- Source app.py:949-982: the view's opening balance — the recorded snapshot
amount (if the toggle is on and a snapshot exists) plus the computed
historical sum (if that toggle is on). -/
def saldo_inicial_view (saldos : List Saldo) (mov : List Mov) (cfg : Config) (dIni : Int) : ℚ :=
  (if cfg.usar_saldo_lancado then
    valor_ou_zero (ultimo_saldo_view (saldos_iniciais_ate saldos dIni))
   else 0) +
  (if cfg.usar_saldo_calculado then saldo_calculado_historico mov dIni else 0)

/-- Source app.py:1276-1297: the simulation's opening balance (same additive
structure as the view's, but its snapshot query has no insertion-id
tie-break). -/
def saldo_inicial_sim (saldos : List Saldo) (mov : List Mov) (cfg : Config) (dIni : Int) : ℚ :=
  (if cfg.usar_saldo_lancado then
    valor_ou_zero (ultimo_saldo_sim (saldos_iniciais_ate saldos dIni))
   else 0) +
  (if cfg.usar_saldo_calculado then saldo_calculado_historico mov dIni else 0)

/-! ## Formula dispatch -/

/-- Source app.py:993-1004: the live view's formula dispatch.  Note the
`else` fallback is `saldo + entradas + saídas`. -/
def formula_view (modelo : String) (saldo ent sai : ℚ) : ℚ :=
  if modelo == "Saldo + Entradas + Saídas" then saldo + ent + sai
  else if modelo == "Saldo + Entradas - Saídas" then saldo + ent - sai
  else if modelo == "Saldo + (Entradas - Saídas)" then saldo + (ent - sai)
  else if modelo == "Saldo + Somente Entradas" then saldo + ent
  else if modelo == "Saldo + Somente Saídas" then saldo + sai
  else saldo + ent + sai

/-- Source app.py:1314-1325: the simulation's formula dispatch.  Note the
`else` fallback is `saldo + entradas - saídas`. -/
def formula_sim (modelo : String) (saldo ent sai : ℚ) : ℚ :=
  if modelo == "Saldo + Entradas - Saídas" then saldo + ent - sai
  else if modelo == "Saldo + Entradas + Saídas" then saldo + ent + sai
  else if modelo == "Saldo + (Entradas - Saídas)" then saldo + (ent - sai)
  else if modelo == "Saldo + Somente Entradas" then saldo + ent
  else if modelo == "Saldo + Somente Saídas" then saldo + sai
  else saldo + ent - sai

/-! ## The two end-to-end runs -/

/-- The summary numbers the live DFC view reports (app.py:1103-1111). -/
structure ViewReport where
  saldoInicial : ℚ
  entradas : ℚ
  saidas : ℚ
  saldoFinal : ℚ
  geracaoCaixa : ℚ
deriving DecidableEq, Repr

/-- The summary numbers the simulation reports (app.py:1330-1334). -/
structure SimReport where
  saldoInicial : ℚ
  entradas : ℚ
  saidas : ℚ
  saldoFinal : ℚ
deriving DecidableEq, Repr

/-- One run of the live "DFC - Caixa" view (app.py:881-1111): join, abort when
empty, reconciliation filter, abort when empty, period restriction, abort when
empty, opening balance, period totals, formula, cash generation.  `none`
models `st.warning` followed by `st.stop()` (app.py:925-927, 938-940,
944-946). -/
def dfc_run (plano : List Conta) (lancs : List Lancamento) (saldos : List Saldo)
    (cfg : Config) (dIni dFim : Int) : Option ViewReport :=
  let movAll := movimentos plano lancs
  if movAll.isEmpty then none
  else
    let mov := filtro_conciliados cfg.considerar_somente_conciliados movAll
    if mov.isEmpty then none
    else
      let periodo := filtro_periodo dIni dFim mov
      if periodo.isEmpty then none
      else
        let saldoIni := saldo_inicial_view saldos mov cfg dIni
        let ent := total_entradas_de periodo
        let sai := ajuste_saida cfg.forcar_saida_negativa (total_saidas_raw_de periodo)
        let saldoFim := formula_view cfg.modelo saldoIni ent sai
        some { saldoInicial := saldoIni, entradas := ent, saidas := sai,
               saldoFinal := saldoFim, geracaoCaixa := saldoFim - saldoIni }

/-- One run of the "Auditoria DFC" simulation (app.py:1228-1334): same join
and reconciliation filter, but no abort on an empty period — the period
totals are simply zero.  `none` models the two warnings that abort without
computing (app.py:1247-1248, 1260-1261). -/
def sim_run (plano : List Conta) (lancs : List Lancamento) (saldos : List Saldo)
    (cfg : Config) (dIni dFim : Int) : Option SimReport :=
  let movAll := movimentos plano lancs
  if movAll.isEmpty then none
  else
    let mov := filtro_conciliados cfg.considerar_somente_conciliados movAll
    if mov.isEmpty then none
    else
      let saldoIni := saldo_inicial_sim saldos mov cfg dIni
      let periodo := filtro_periodo dIni dFim mov
      let ent := total_entradas_de periodo
      let sai := ajuste_saida cfg.forcar_saida_negativa (total_saidas_raw_de periodo)
      some { saldoInicial := saldoIni, entradas := ent, saidas := sai,
             saldoFinal := formula_sim cfg.modelo saldoIni ent sai }

/-! ## Hierarchy inference and roll-up (app.py:1028-1074) -/

/-- Source app.py:1028-1037: the account-code set — codes stripped
(`.str.strip()`, app.py:1029) and used as dictionary keys, hence deduplicated
keeping first occurrences. -/
def codigos_plano (plano : List Conta) : List String :=
  (plano.map (fun p => normalizar_codigo p.codigo)).dedup

/-- Source app.py:1035, `plano_nat`: code-to-nature dictionary built by
comprehension, so for duplicate codes the last row wins. -/
def natureza_de (plano : List Conta) (cod : String) : Option String :=
  (plano.reverse.find? (fun p => normalizar_codigo p.codigo == cod)).map (·.natureza)

/-- Source app.py:1041-1045: the first candidate ancestor that exists in the
account-code set, scanning `codigo_pais` in order. -/
def pai_existente (codes : List String) (cod : String) : Option String :=
  (codigo_pais cod).find? (fun p => codes.contains p)

/-- Source app.py:1037-1050: the children of `cod` — the codes whose first
existing ancestor is `cod` — deduplicated (`set`) and sorted. -/
def filhos (codes : List String) (cod : String) : List String :=
  ((codes.filter (fun ch => pai_existente codes ch == some cod)).dedup).mergeSort
    (fun a b => decide (a ≤ b))

/-- Source app.py:1052-1056, `tem_pai`: whether any candidate ancestor exists
in the account-code set. -/
def tem_pai (codes : List String) (cod : String) : Bool :=
  (codigo_pais cod).any (fun p => codes.contains p)

/-- Source app.py:1058-1059: the sorted root codes of one nature — codes with
no existing ancestor whose recorded nature is `nat`. -/
def raizes (plano : List Conta) (nat : String) : List String :=
  ((codigos_plano plano).filter (fun c =>
    !tem_pai (codigos_plano plano) c && (natureza_de plano c == some nat))).mergeSort
    (fun a b => decide (a ≤ b))

/-- Source app.py:1031-1032, `soma_por_codigo`: the groupby-(codigo, natureza)
sum of period movement amounts, missing groups giving 0. -/
def soma_por_codigo (periodo : List Mov) (cod nat : String) : ℚ :=
  ((periodo.filter (fun m => m.codigo == cod && m.natureza == nat)).map (·.valor)).sum

/-- Source app.py:1061-1074, `total_no`: a node's own grouped sum plus the
totals of its children that share the nature, recursively.  The source
recursion is bounded because a child always has strictly fewer `"00"` blocks
than its parent (proved below); here the recursion carries fuel, and fuel 5
already exceeds every possible depth, so `total_conta` computes the source's
value. -/
def total_no (plano : List Conta) (periodo : List Mov) : Nat → String → String → ℚ
  | 0, cod, nat => soma_por_codigo periodo cod nat
  | fuel+1, cod, nat =>
    soma_por_codigo periodo cod nat +
    (((filhos (codigos_plano plano) cod).filter
        (fun ch => (natureza_de plano ch).getD nat == nat)).map
      (fun ch => total_no plano periodo fuel ch nat)).sum

/-- The roll-up total of a node, at fuel 5 (more than the maximal recursion
depth of the source). -/
def total_conta (plano : List Conta) (periodo : List Mov) (cod nat : String) : ℚ :=
  total_no plano periodo 5 cod nat

/-! ## Proof-measure helpers (not part of the source) -/

/-- Number of `"00"` blocks of a code (a proof measure: candidate ancestors
strictly increase it). -/
def zeros (cod : String) : Nat :=
  ((codigo_blocos cod).filter (fun b => b == "00")).length

/-- Specificity of a code: the number of non-`"00"` blocks (the spec's
"specificity", §4.1). -/
def especificidade (cod : String) : Nat :=
  ((codigo_blocos cod).filter (fun b => b != "00")).length

/-- Iterating `pai_existente` `n` times (for stating acyclicity). -/
def pai_iter (codes : List String) : Nat → String → Option String
  | 0, cod => some cod
  | n+1, cod =>
    match pai_existente codes cod with
    | some p => pai_iter codes n p
    | none => none

/-- Depth of a code below its root along `pai_existente`, fuel-bounded. -/
def profundidade (codes : List String) : Nat → String → Nat
  | 0, _ => 0
  | f+1, cod =>
    match pai_existente codes cod with
    | some p => profundidade codes f p + 1
    | none => 0

/-- The codes at depth `k` below the roots of nature `nat` (layer 0 is the
root list, layer `k+1` the concatenation of the children lists of layer `k`). -/
def camada (plano : List Conta) (nat : String) : Nat → List String
  | 0 => raizes plano nat
  | k+1 => (camada plano nat k).flatMap (fun c => filhos (codigos_plano plano) c)

/-- Whether a code is malformed in the spec's sense (§7): fewer than four
dot-separated segments, or a segment that is not a (nonempty) digit string. -/
def codigo_malformado (cod : String) : Bool :=
  ((normalizar_codigo cod).data.splitOnP (· == '.')).length < 4 ||
  !((normalizar_codigo cod).data.splitOnP (· == '.')).all
    (fun seg => !seg.isEmpty && seg.all (·.isDigit))

/-! ## Spec-modelled opening-balance contributions (spec §4.3)

These two definitions follow the specification's words (not the SQL/pandas
implementation) and are compared with the implementation in the claim-C4
theorem. -/

/-- One step of the spec-side selection: keep `s` when it is at least as late
as the best so far (later reference date, or the same date with an id at
least as large — i.e. inserted at least as recently). -/
def passo_reg (s : Saldo) (acc : Option Saldo) : Option Saldo :=
  match acc with
  | none => some s
  | some t =>
    if s.data_referencia > t.data_referencia ∨
       (s.data_referencia = t.data_referencia ∧ s.id ≥ t.id) then some s else some t

/-- Merging an accumulator with an optional candidate via `passo_view` (a
proof helper relating the left fold of the view's scan to the right fold of
the spec-side selection). -/
def funde (acc m : Option Saldo) : Option Saldo :=
  match m with
  | none => acc
  | some u => passo_view acc u

/-- Modelled from the spec (§4.3): the recorded-opening contribution — the
amount of the `Inicial` snapshot with the latest reference date at or before
`d`, ties at the same date broken by most-recent insertion (largest id);
0 when no such snapshot exists. -/
def abertura_registrada (saldos : List Saldo) (d : Int) : ℚ :=
  valor_ou_zero ((saldos_iniciais_ate saldos d).foldr passo_reg none)

/-- Modelled from the spec (§4.3): the computed-opening contribution — the sum
of admissible Entrada amounts paid strictly before `d` minus the sum of
admissible Saída amounts paid strictly before `d`. -/
def abertura_calculada (mov : List Mov) (d : Int) : ℚ :=
  soma_valores ((mov.filter (fun m => decide (m.data_pagamento < d))).filter
    (fun m => m.natureza == "Entrada")) -
  soma_valores ((mov.filter (fun m => decide (m.data_pagamento < d))).filter
    (fun m => m.natureza == "Saída"))

/-! # Theorems -/

/-! ## Basic facts about the filters and runs -/

theorem filtro_conciliados_nil (b : Bool) : filtro_conciliados b [] = [] := by
  cases b <;> simp [filtro_conciliados]

theorem filtro_conciliados_ne_nil {b : Bool} {movs : List Mov}
    (h : filtro_conciliados b movs ≠ []) : movs ≠ [] := by
  intro hm
  subst hm
  exact h (filtro_conciliados_nil b)

theorem ajuste_saida_zero (f : Bool) : ajuste_saida f 0 = 0 := by
  cases f <;> simp [ajuste_saida]

theorem total_entradas_de_nil : total_entradas_de [] = 0 := rfl

theorem total_saidas_raw_de_nil : total_saidas_raw_de [] = 0 := rfl

/-! ## Claim C2: the unknown-formula fallbacks -/

/-- Claim C2 counterexample: in the live DFC view an unknown formula id (here
`"X"`) does not evaluate to the first formula `opening + entradas - saídas`:
with opening 0, entradas 0 and signed saídas 1 the view's dispatch yields 1,
not `0 + 0 - 1`. -/
theorem c2_counterexample :
    formula_view "X" 0 0 1 = 1 ∧ formula_view "X" 0 0 1 ≠ (0 : ℚ) + 0 - 1 := by
  constructor
  · simp +decide [formula_view]
  · simp +decide [formula_view]

/-- Claim C2 (amended): a formula identifier that is none of the five
enumerated ones falls back to `opening + entradas - saídas` (the first
formula) in the simulation's dispatch, but to `opening + entradas + saídas`
(the second formula) in the live DFC view's dispatch. -/
theorem c2_unknown_formula_fallback (modelo : String) (s e a : ℚ)
    (h : modelo ∉ formulas_conhecidas) :
    formula_sim modelo s e a = s + e - a ∧ formula_view modelo s e a = s + e + a := by
  simp only [formulas_conhecidas, List.mem_cons, List.not_mem_nil, or_false, not_or] at h
  obtain ⟨h1, h2, h3, h4, h5⟩ := h
  constructor
  · simp [formula_sim, h1, h2, h3, h4, h5]
  · simp [formula_view, h1, h2, h3, h4, h5]

theorem c2_unknown_formula_fallback_witness :
    "X" ∉ formulas_conhecidas ∧
    (formula_sim "X" 1 2 3 = 1 + 2 - 3 ∧ formula_view "X" 1 2 3 = 1 + 2 + 3) :=
  ⟨by decide, c2_unknown_formula_fallback "X" 1 2 3 (by decide)⟩

/-! ## Claim C9: cash generated is recomputed as closing minus opening -/

/-- Claim C9: for every input and every formula choice, the cash generation
the live view reports equals its computed closing balance minus its opening
balance (app.py:1111 recomputes it from those two values). -/
theorem c9_geracao_caixa (plano : List Conta) (lancs : List Lancamento) (saldos : List Saldo)
    (cfg : Config) (dIni dFim : Int) (r : ViewReport)
    (h : dfc_run plano lancs saldos cfg dIni dFim = some r) :
    r.geracaoCaixa = r.saldoFinal - r.saldoInicial := by
  simp only [dfc_run] at h
  split_ifs at h
  injection h with h
  subst h
  rfl

theorem c9_geracao_caixa_witness :
    dfc_run [⟨"2.01.00.00", "d", "Saída"⟩] [⟨5, 10, "Pago", "2.01.00.00"⟩] []
      ⟨"Saldo + Entradas - Saídas", true, false, false, true⟩ 0 10 =
        some ⟨0, 0, -10, 10, 10⟩ ∧
    (⟨0, 0, -10, 10, 10⟩ : ViewReport).geracaoCaixa =
      (⟨0, 0, -10, 10, 10⟩ : ViewReport).saldoFinal -
        (⟨0, 0, -10, 10, 10⟩ : ViewReport).saldoInicial := by
  have h : dfc_run [⟨"2.01.00.00", "d", "Saída"⟩] [⟨5, 10, "Pago", "2.01.00.00"⟩] []
      ⟨"Saldo + Entradas - Saídas", true, false, false, true⟩ 0 10 =
        some ⟨0, 0, -10, 10, 10⟩ := by
    simp +decide [dfc_run, movimentos, filtro_conciliados, filtro_periodo,
      saldo_inicial_view, ultimo_saldo_view, saldos_iniciais_ate, saldo_calculado_historico,
      total_entradas_de, total_saidas_raw_de, soma_valores, ajuste_saida, formula_view,
      valor_ajustado, List.filter]
  exact ⟨h, c9_geracao_caixa _ _ _ _ _ _ _ h⟩

/-! ## Claim C3: behaviour on an empty admissible set / empty period -/

/-- Claim C3 counterexample: with a single unreconciled entry and
`considerar_somente_conciliados` on, the reconciliation filter leaves no
admissible entries and neither the live view nor the simulation returns a
report (no all-zero report is produced; both abort). -/
theorem c3_counterexample :
    dfc_run [⟨"1.01.00.00", "x", "Entrada"⟩] [⟨5, 100, "A receber", "1.01.00.00"⟩] []
      ⟨"Saldo + Entradas - Saídas", true, true, true, true⟩ 0 10 = none ∧
    sim_run [⟨"1.01.00.00", "x", "Entrada"⟩] [⟨5, 100, "A receber", "1.01.00.00"⟩] []
      ⟨"Saldo + Entradas - Saídas", true, true, true, true⟩ 0 10 = none := by
  constructor <;> decide

/-- Claim C3 (amended): when the reconciliation filter (or an empty join)
leaves no admissible entries, both the live view and the simulation abort
without returning a report; when admissible entries exist but the date range
leaves none in the period, the live view still aborts while the simulation
returns a report whose period totals are zero and whose closing balance is
the formula applied to the opening balance and zero totals. -/
theorem c3_empty_admissible_behaviour (plano : List Conta) (lancs : List Lancamento)
    (saldos : List Saldo) (cfg : Config) (dIni dFim : Int) :
    (filtro_conciliados cfg.considerar_somente_conciliados (movimentos plano lancs) = [] →
      dfc_run plano lancs saldos cfg dIni dFim = none ∧
      sim_run plano lancs saldos cfg dIni dFim = none) ∧
    (filtro_conciliados cfg.considerar_somente_conciliados (movimentos plano lancs) ≠ [] →
     filtro_periodo dIni dFim
        (filtro_conciliados cfg.considerar_somente_conciliados (movimentos plano lancs)) = [] →
      dfc_run plano lancs saldos cfg dIni dFim = none ∧
      ∃ r, sim_run plano lancs saldos cfg dIni dFim = some r ∧
        r.entradas = 0 ∧ r.saidas = 0 ∧
        r.saldoFinal = formula_sim cfg.modelo r.saldoInicial 0 0) := by
  constructor
  · intro h
    unfold dfc_run sim_run
    rcases eq_or_ne (movimentos plano lancs) [] with hm | hm
    · simp [hm]
    · simp [hm, h]
  · intro h hp
    have hm : movimentos plano lancs ≠ [] := filtro_conciliados_ne_nil h
    constructor
    · unfold dfc_run
      simp [hm, h, hp]
    · unfold sim_run
      simp only [List.isEmpty_eq_true, hm, h, if_false]
      refine ⟨_, rfl, ?_, ?_, ?_⟩
      · rw [hp, total_entradas_de_nil]
      · rw [hp, total_saidas_raw_de_nil, ajuste_saida_zero]
      · rw [hp, total_entradas_de_nil, total_saidas_raw_de_nil, ajuste_saida_zero]

theorem c3_empty_admissible_behaviour_witness :
    (filtro_conciliados true (movimentos [⟨"2.01.00.00", "d", "Saída"⟩]
        [⟨5, 10, "Pago", "2.01.00.00"⟩]) ≠ []) ∧
    (filtro_periodo 20 30 (filtro_conciliados true (movimentos [⟨"2.01.00.00", "d", "Saída"⟩]
        [⟨5, 10, "Pago", "2.01.00.00"⟩])) = []) ∧
    (dfc_run [⟨"2.01.00.00", "d", "Saída"⟩] [⟨5, 10, "Pago", "2.01.00.00"⟩] []
        ⟨"Saldo + Entradas - Saídas", true, false, true, true⟩ 20 30 = none ∧
      ∃ r, sim_run [⟨"2.01.00.00", "d", "Saída"⟩] [⟨5, 10, "Pago", "2.01.00.00"⟩] []
          ⟨"Saldo + Entradas - Saídas", true, false, true, true⟩ 20 30 = some r ∧
        r.entradas = 0 ∧ r.saidas = 0 ∧
        r.saldoFinal = formula_sim "Saldo + Entradas - Saídas" r.saldoInicial 0 0) :=
  ⟨by decide, by decide,
    (c3_empty_admissible_behaviour [⟨"2.01.00.00", "d", "Saída"⟩]
        [⟨5, 10, "Pago", "2.01.00.00"⟩] []
        ⟨"Saldo + Entradas - Saídas", true, false, true, true⟩ 20 30).2
      (by decide) (by decide)⟩

/-! ## Claim C1: live view vs audit simulation -/

theorem formula_view_eq_sim (modelo : String) (h : modelo ∈ formulas_conhecidas)
    (s e a : ℚ) : formula_view modelo s e a = formula_sim modelo s e a := by
  simp only [formulas_conhecidas, List.mem_cons, List.not_mem_nil, or_false] at h
  rcases h with rfl | rfl | rfl | rfl | rfl <;> rfl

theorem foldl_passo_agree (l : List Saldo) : ∀ acc : Option Saldo,
    (∀ t, acc = some t → ∀ s ∈ l, t.data_referencia ≠ s.data_referencia) →
    l.Pairwise (fun s t => s.data_referencia ≠ t.data_referencia) →
    l.foldl passo_view acc = l.foldl passo_sim acc := by
  induction l with
  | nil => intro acc _ _; rfl
  | cons s l ih =>
    intro acc hacc hl
    obtain ⟨hs, hl'⟩ := List.pairwise_cons.mp hl
    rw [List.foldl_cons, List.foldl_cons]
    cases acc with
    | none =>
      exact ih (some s) (fun t ht u hu => by injection ht with ht; subst ht; exact hs u hu) hl'
    | some t =>
      have hts : t.data_referencia ≠ s.data_referencia :=
        hacc t rfl s (List.mem_cons_self s l)
      by_cases hlt : t.data_referencia < s.data_referencia
      · have hv : passo_view (some t) s = some s := by simp [passo_view, hlt]
        have hw : passo_sim (some t) s = some s := by simp [passo_sim, hlt]
        rw [hv, hw]
        exact ih (some s) (fun u hu v hv' => by injection hu with hu; subst hu; exact hs v hv') hl'
      · have hv : passo_view (some t) s = some t := by
          simp only [passo_view]
          rw [if_neg]
          rintro (h | ⟨heq, _⟩)
          · exact hlt h
          · exact hts heq
        have hw : passo_sim (some t) s = some t := by simp [passo_sim, hlt]
        rw [hv, hw]
        exact ih (some t)
          (fun u hu v hv' => by
            injection hu with hu; subst hu
            exact hacc _ rfl v (List.mem_cons_of_mem s hv')) hl'

theorem saldos_iniciais_pairwise (saldos : List Saldo) (d : Int)
    (h : (saldos.filter (fun s => s.tipo == "Inicial")).Pairwise
      (fun s t => s.data_referencia ≠ t.data_referencia)) :
    (saldos_iniciais_ate saldos d).Pairwise
      (fun s t => s.data_referencia ≠ t.data_referencia) := by
  have h2 : saldos_iniciais_ate saldos d =
      (saldos.filter (fun s => s.tipo == "Inicial")).filter
        (fun s => decide (s.data_referencia ≤ d)) := by
    rw [List.filter_filter]
    exact List.filter_congr (fun a _ => Bool.and_comm _ _)
  rw [h2]
  exact h.sublist (List.filter_sublist _)

theorem saldo_inicial_view_eq_sim (saldos : List Saldo) (mov : List Mov) (cfg : Config)
    (dIni : Int)
    (h : (saldos.filter (fun s => s.tipo == "Inicial")).Pairwise
      (fun s t => s.data_referencia ≠ t.data_referencia)) :
    saldo_inicial_view saldos mov cfg dIni = saldo_inicial_sim saldos mov cfg dIni := by
  unfold saldo_inicial_view saldo_inicial_sim ultimo_saldo_view ultimo_saldo_sim
  rw [foldl_passo_agree _ none (fun t ht => nomatch ht)
    (saldos_iniciais_pairwise saldos dIni h)]

/-- Claim C1 counterexample: with identical inputs and identical configuration
(the same five settings, whose formula identifier is the unrecognized `"X"`),
the live view and the simulation both produce a report but compute different
closing balances (−10 vs 10): the two views are not one code path and can
diverge. -/
theorem c1_counterexample :
    dfc_run [⟨"2.01.00.00", "d", "Saída"⟩] [⟨5, 10, "Pago", "2.01.00.00"⟩] []
      ⟨"X", true, false, false, true⟩ 0 10 = some ⟨0, 0, -10, -10, -10⟩ ∧
    sim_run [⟨"2.01.00.00", "d", "Saída"⟩] [⟨5, 10, "Pago", "2.01.00.00"⟩] []
      ⟨"X", true, false, false, true⟩ 0 10 = some ⟨0, 0, -10, 10⟩ ∧
    (-10 : ℚ) ≠ 10 := by
  refine ⟨?_, ?_, by norm_num⟩ <;>
    simp +decide [dfc_run, sim_run, movimentos, filtro_conciliados, filtro_periodo,
      saldo_inicial_view, saldo_inicial_sim, ultimo_saldo_view, ultimo_saldo_sim,
      passo_view, passo_sim, saldos_iniciais_ate, saldo_calculado_historico,
      total_entradas_de, total_saidas_raw_de, soma_valores, ajuste_saida,
      formula_view, formula_sim, valor_ajustado, List.filter]

/-- Claim C1 (amended): when the shared configuration's formula identifier is
one of the five enumerated formulas, the `Inicial` snapshots carry pairwise
distinct reference dates, and the reconciliation filter and date range leave
at least one admissible entry in the period, the live DFC view and the audit
simulation compute exactly the same opening balance, the same period totals
of Entradas and Saídas, and the same closing balance.  (Outside these
conditions they can diverge: the two dispatches fall back to different
formulas, the two snapshot queries break date ties differently, and on an
empty period the live view aborts while the simulation still reports.) -/
theorem c1_views_agree (plano : List Conta) (lancs : List Lancamento) (saldos : List Saldo)
    (cfg : Config) (dIni dFim : Int)
    (hmodelo : cfg.modelo ∈ formulas_conhecidas)
    (hsaldos : (saldos.filter (fun s => s.tipo == "Inicial")).Pairwise
      (fun s t => s.data_referencia ≠ t.data_referencia))
    (hperiodo : filtro_periodo dIni dFim
      (filtro_conciliados cfg.considerar_somente_conciliados (movimentos plano lancs)) ≠ []) :
    ∃ vr sr,
      dfc_run plano lancs saldos cfg dIni dFim = some vr ∧
      sim_run plano lancs saldos cfg dIni dFim = some sr ∧
      vr.saldoInicial = sr.saldoInicial ∧ vr.entradas = sr.entradas ∧
      vr.saidas = sr.saidas ∧ vr.saldoFinal = sr.saldoFinal := by
  have hmov : filtro_conciliados cfg.considerar_somente_conciliados (movimentos plano lancs) ≠ [] := by
    intro h0
    apply hperiodo
    rw [h0]
    rfl
  have hmovAll := filtro_conciliados_ne_nil hmov
  have hsi := saldo_inicial_view_eq_sim saldos
    (filtro_conciliados cfg.considerar_somente_conciliados (movimentos plano lancs)) cfg dIni hsaldos
  unfold dfc_run sim_run
  simp only [List.isEmpty_eq_true, hmovAll, hmov, hperiodo, if_false]
  refine ⟨_, _, rfl, rfl, hsi, rfl, rfl, ?_⟩
  show formula_view cfg.modelo _ _ _ = formula_sim cfg.modelo _ _ _
  rw [hsi]
  exact formula_view_eq_sim cfg.modelo hmodelo _ _ _

theorem c1_views_agree_witness :
    ((⟨"Saldo + Entradas - Saídas", true, false, false, true⟩ : Config).modelo ∈
      formulas_conhecidas) ∧
    (∃ vr sr,
      dfc_run [⟨"2.01.00.00", "d", "Saída"⟩] [⟨5, 10, "Pago", "2.01.00.00"⟩] []
        ⟨"Saldo + Entradas - Saídas", true, false, false, true⟩ 0 10 = some vr ∧
      sim_run [⟨"2.01.00.00", "d", "Saída"⟩] [⟨5, 10, "Pago", "2.01.00.00"⟩] []
        ⟨"Saldo + Entradas - Saídas", true, false, false, true⟩ 0 10 = some sr ∧
      vr.saldoInicial = sr.saldoInicial ∧ vr.entradas = sr.entradas ∧
      vr.saidas = sr.saidas ∧ vr.saldoFinal = sr.saldoFinal) :=
  ⟨by decide,
    c1_views_agree [⟨"2.01.00.00", "d", "Saída"⟩] [⟨5, 10, "Pago", "2.01.00.00"⟩] []
      ⟨"Saldo + Entradas - Saídas", true, false, false, true⟩ 0 10
      (by decide) (by decide) (by decide)⟩

/-! ## Claim C4: the opening-balance resolution -/

theorem funde_passo (acc : Option Saldo) (s : Saldo) (m : Option Saldo) :
    funde (passo_view acc s) m = funde acc (passo_reg s m) := by
  cases m with
  | none => rfl
  | some u =>
    cases acc with
    | none =>
      show passo_view (some s) u = funde none (passo_reg s (some u))
      simp only [passo_view, passo_reg, funde]
      split_ifs <;> first | rfl | (exfalso; omega)
    | some t =>
      by_cases h1 : t.data_referencia < s.data_referencia ∨
          (t.data_referencia = s.data_referencia ∧ t.id < s.id)
      · have e1 : passo_view (some t) s = some s := by simp [passo_view, h1]
        show funde (passo_view (some t) s) (some u) = funde (some t) (passo_reg s (some u))
        rw [e1]
        show passo_view (some s) u = funde (some t) (passo_reg s (some u))
        by_cases hB : s.data_referencia > u.data_referencia ∨
            (s.data_referencia = u.data_referencia ∧ s.id ≥ u.id)
        · have e2 : passo_reg s (some u) = some s := by simp [passo_reg, hB]
          rw [e2]
          show passo_view (some s) u = passo_view (some t) s
          simp only [passo_view]
          rw [if_pos h1, if_neg (by omega :
            ¬(s.data_referencia < u.data_referencia ∨
              (s.data_referencia = u.data_referencia ∧ s.id < u.id)))]
        · have e2 : passo_reg s (some u) = some u := by
            simp only [passo_reg]
            rw [if_neg hB]
          rw [e2]
          show passo_view (some s) u = passo_view (some t) u
          simp only [passo_view]
          rw [if_pos (by omega :
              s.data_referencia < u.data_referencia ∨
                (s.data_referencia = u.data_referencia ∧ s.id < u.id)),
            if_pos (by omega :
              t.data_referencia < u.data_referencia ∨
                (t.data_referencia = u.data_referencia ∧ t.id < u.id))]
      · have e1 : passo_view (some t) s = some t := by
          simp only [passo_view]
          rw [if_neg h1]
        show funde (passo_view (some t) s) (some u) = funde (some t) (passo_reg s (some u))
        rw [e1]
        show passo_view (some t) u = funde (some t) (passo_reg s (some u))
        by_cases hB : s.data_referencia > u.data_referencia ∨
            (s.data_referencia = u.data_referencia ∧ s.id ≥ u.id)
        · have e2 : passo_reg s (some u) = some s := by simp [passo_reg, hB]
          rw [e2]
          show passo_view (some t) u = passo_view (some t) s
          simp only [passo_view]
          rw [if_neg h1, if_neg (by omega :
            ¬(t.data_referencia < u.data_referencia ∨
              (t.data_referencia = u.data_referencia ∧ t.id < u.id)))]
        · have e2 : passo_reg s (some u) = some u := by
            simp only [passo_reg]
            rw [if_neg hB]
          rw [e2]
          rfl

theorem foldl_view_eq_foldr_reg (l : List Saldo) : ∀ acc : Option Saldo,
    l.foldl passo_view acc = funde acc (l.foldr passo_reg none) := by
  induction l with
  | nil => intro acc; rfl
  | cons s l ih =>
    intro acc
    rw [List.foldl_cons, List.foldr_cons, ih (passo_view acc s), funde_passo]

theorem ultimo_saldo_view_eq_foldr (l : List Saldo) :
    ultimo_saldo_view l = l.foldr passo_reg none := by
  unfold ultimo_saldo_view
  rw [foldl_view_eq_foldr_reg l none]
  cases l.foldr passo_reg none with
  | none => rfl
  | some u => rfl

theorem registrada_eq (saldos : List Saldo) (d : Int) :
    valor_ou_zero (ultimo_saldo_view (saldos_iniciais_ate saldos d)) =
      abertura_registrada saldos d := by
  unfold abertura_registrada
  rw [ultimo_saldo_view_eq_foldr]

theorem soma_valor_ajustado (l : List Mov)
    (h : ∀ m ∈ l, m.natureza = "Entrada" ∨ m.natureza = "Saída") :
    (l.map valor_ajustado).sum =
      soma_valores (l.filter (fun m => m.natureza == "Entrada")) -
      soma_valores (l.filter (fun m => m.natureza == "Saída")) := by
  induction l with
  | nil => simp [soma_valores]
  | cons m l ih =>
    have ih' := ih (fun x hx => h x (List.mem_cons_of_mem m hx))
    rcases h m (List.mem_cons_self m l) with hm | hm
    · have e1 : (m.natureza == "Entrada") = true := by rw [hm]; rfl
      have e2 : (m.natureza == "Saída") = false := by rw [hm]; rfl
      simp only [List.map_cons, List.sum_cons, List.filter_cons, e1, e2, if_true, if_false,
        soma_valores, valor_ajustado, Bool.false_eq_true, ite_false, ite_true]
      simp only [soma_valores] at ih'
      rw [ih']
      ring
    · have e1 : (m.natureza == "Entrada") = false := by rw [hm]; rfl
      have e2 : (m.natureza == "Saída") = true := by rw [hm]; rfl
      simp only [List.map_cons, List.sum_cons, List.filter_cons, e1, e2, if_true, if_false,
        soma_valores, valor_ajustado, Bool.false_eq_true, ite_false, ite_true]
      simp only [soma_valores] at ih'
      rw [ih']
      ring

theorem saldo_calculado_eq_abertura (mov : List Mov) (d : Int)
    (h : ∀ m ∈ mov, m.natureza = "Entrada" ∨ m.natureza = "Saída") :
    saldo_calculado_historico mov d = abertura_calculada mov d := by
  unfold saldo_calculado_historico abertura_calculada
  exact soma_valor_ajustado _ (fun m hm => h m (List.mem_of_mem_filter hm))

/-- Claim C4: for every period start `d`, snapshot list, admissible movement
list (whose rows carry an `Entrada`/`Saída` nature) and toggles, the opening
balance equals the recorded contribution (the amount of the `Inicial`
snapshot with the latest reference date at or before `d`, ties broken by
most-recent insertion, 0 if none, counted only under `usar_saldo_lancado`)
plus the computed contribution (the signed sum of admissible rows paid
strictly before `d`, counted only under `usar_saldo_calculado`); the two
contributions are additive, and with both toggles off the opening balance is
0.  The same holds for the simulation's resolver whenever the `Inicial`
snapshots carry pairwise distinct reference dates (its query has no
insertion-id tie-break). -/
theorem c4_saldo_inicial_resolucao (saldos : List Saldo) (mov : List Mov) (cfg : Config)
    (d : Int) (hnat : ∀ m ∈ mov, m.natureza = "Entrada" ∨ m.natureza = "Saída") :
    saldo_inicial_view saldos mov cfg d =
      (if cfg.usar_saldo_lancado then abertura_registrada saldos d else 0) +
      (if cfg.usar_saldo_calculado then abertura_calculada mov d else 0) ∧
    ((saldos.filter (fun s => s.tipo == "Inicial")).Pairwise
        (fun s t => s.data_referencia ≠ t.data_referencia) →
      saldo_inicial_sim saldos mov cfg d =
        (if cfg.usar_saldo_lancado then abertura_registrada saldos d else 0) +
        (if cfg.usar_saldo_calculado then abertura_calculada mov d else 0)) ∧
    (cfg.usar_saldo_lancado = false → cfg.usar_saldo_calculado = false →
      saldo_inicial_view saldos mov cfg d = 0) := by
  refine ⟨?_, ?_, ?_⟩
  · unfold saldo_inicial_view
    rw [registrada_eq, saldo_calculado_eq_abertura mov d hnat]
  · intro hpar
    unfold saldo_inicial_sim
    have hsim : ultimo_saldo_sim (saldos_iniciais_ate saldos d) =
        ultimo_saldo_view (saldos_iniciais_ate saldos d) :=
      (foldl_passo_agree _ none (fun t ht => nomatch ht)
        (saldos_iniciais_pairwise saldos d hpar)).symm
    rw [ultimo_saldo_sim, ultimo_saldo_view] at hsim
    rw [ultimo_saldo_sim, hsim]
    rw [show (saldos_iniciais_ate saldos d).foldl passo_view none =
        ultimo_saldo_view (saldos_iniciais_ate saldos d) from rfl]
    rw [registrada_eq, saldo_calculado_eq_abertura mov d hnat]
  · intro h1 h2
    simp [saldo_inicial_view, h1, h2]

theorem c4_saldo_inicial_resolucao_witness :
    (∀ m ∈ [(⟨2, 30, "Recebido", "1.01.00.00", "Entrada"⟩ : Mov),
            ⟨3, 10, "Pago", "2.01.00.00", "Saída"⟩],
      m.natureza = "Entrada" ∨ m.natureza = "Saída") ∧
    (saldo_inicial_view [⟨1, 3, "Inicial", 50⟩, ⟨2, 5, "Inicial", 70⟩, ⟨3, 9, "Final", 999⟩]
        [⟨2, 30, "Recebido", "1.01.00.00", "Entrada"⟩, ⟨3, 10, "Pago", "2.01.00.00", "Saída"⟩]
        ⟨"Saldo + Entradas - Saídas", true, true, true, true⟩ 6 =
      (if true then abertura_registrada
          [⟨1, 3, "Inicial", 50⟩, ⟨2, 5, "Inicial", 70⟩, ⟨3, 9, "Final", 999⟩] 6 else 0) +
      (if true then abertura_calculada
          [⟨2, 30, "Recebido", "1.01.00.00", "Entrada"⟩, ⟨3, 10, "Pago", "2.01.00.00", "Saída"⟩]
          6 else 0) ∧
    (([(⟨1, 3, "Inicial", 50⟩ : Saldo), ⟨2, 5, "Inicial", 70⟩, ⟨3, 9, "Final", 999⟩].filter
        (fun s => s.tipo == "Inicial")).Pairwise
        (fun s t => s.data_referencia ≠ t.data_referencia) →
      saldo_inicial_sim [⟨1, 3, "Inicial", 50⟩, ⟨2, 5, "Inicial", 70⟩, ⟨3, 9, "Final", 999⟩]
        [⟨2, 30, "Recebido", "1.01.00.00", "Entrada"⟩, ⟨3, 10, "Pago", "2.01.00.00", "Saída"⟩]
        ⟨"Saldo + Entradas - Saídas", true, true, true, true⟩ 6 =
      (if true then abertura_registrada
          [⟨1, 3, "Inicial", 50⟩, ⟨2, 5, "Inicial", 70⟩, ⟨3, 9, "Final", 999⟩] 6 else 0) +
      (if true then abertura_calculada
          [⟨2, 30, "Recebido", "1.01.00.00", "Entrada"⟩, ⟨3, 10, "Pago", "2.01.00.00", "Saída"⟩]
          6 else 0)) ∧
    (true = false → true = false →
      saldo_inicial_view [⟨1, 3, "Inicial", 50⟩, ⟨2, 5, "Inicial", 70⟩, ⟨3, 9, "Final", 999⟩]
        [⟨2, 30, "Recebido", "1.01.00.00", "Entrada"⟩, ⟨3, 10, "Pago", "2.01.00.00", "Saída"⟩]
        ⟨"Saldo + Entradas - Saídas", true, true, true, true⟩ 6 = 0)) :=
  ⟨by decide,
    c4_saldo_inicial_resolucao
      [⟨1, 3, "Inicial", 50⟩, ⟨2, 5, "Inicial", 70⟩, ⟨3, 9, "Final", 999⟩]
      [⟨2, 30, "Recebido", "1.01.00.00", "Entrada"⟩, ⟨3, 10, "Pago", "2.01.00.00", "Saída"⟩]
      ⟨"Saldo + Entradas - Saídas", true, true, true, true⟩ 6 (by decide)⟩

/-! ## Character-level lemmas about splitting and stripping -/

theorem splitOnP_pieces {α : Type} (P : α → Bool) :
    ∀ (l : List α), ∀ piece ∈ l.splitOnP P, ∀ x ∈ piece, P x = false := by
  intro l
  induction l with
  | nil =>
    intro piece hp x hx
    rw [List.splitOnP_nil] at hp
    simp only [List.mem_singleton] at hp
    subst hp
    simp at hx
  | cons a l ih =>
    intro piece hp x hx
    rw [List.splitOnP_cons] at hp
    by_cases ha : P a
    · rw [if_pos ha] at hp
      rcases List.mem_cons.mp hp with rfl | hp
      · simp at hx
      · exact ih piece hp x hx
    · rw [if_neg ha] at hp
      cases hsp : l.splitOnP P with
      | nil => exact absurd hsp (List.splitOnP_ne_nil _ l)
      | cons h0 rest =>
        rw [hsp, List.modifyHead] at hp
        rcases List.mem_cons.mp hp with rfl | hp
        · rcases List.mem_cons.mp hx with rfl | hx
          · exact Bool.eq_false_iff.mpr ha
          · exact ih h0 (by rw [hsp]; exact List.mem_cons_self h0 rest) x hx
        · exact ih piece (by rw [hsp]; exact List.mem_cons_of_mem h0 hp) x hx

theorem splitOnP_head_take {α : Type} (P : α → Bool) :
    ∀ l : List α, ∃ rest, l.splitOnP P = l.takeWhile (fun x => !P x) :: rest := by
  intro l
  induction l with
  | nil => exact ⟨[], by rw [List.splitOnP_nil]; rfl⟩
  | cons a l ih =>
    by_cases ha : P a
    · refine ⟨l.splitOnP P, ?_⟩
      rw [List.splitOnP_cons, if_pos ha, List.takeWhile_cons]
      have : (!P a) = false := by simp [ha]
      rw [this]
      simp
    · obtain ⟨rest, hrest⟩ := ih
      refine ⟨rest, ?_⟩
      rw [List.splitOnP_cons, if_neg ha, hrest, List.modifyHead, List.takeWhile_cons]
      have : (!P a) = true := by simp [ha]
      rw [this]
      simp

theorem takeWhile_head? {α : Type} (q : α → Bool) (l : List α) (ch : α)
    (h : (l.takeWhile q).head? = some ch) : l.head? = some ch := by
  cases l with
  | nil => simp at h
  | cons x xs =>
    rw [List.takeWhile_cons] at h
    by_cases hx : q x
    · rw [if_pos hx] at h
      simpa using h
    · rw [if_neg hx] at h
      simp at h

theorem dropWhile_head? {α : Type} (p : α → Bool) (l : List α) (ch : α)
    (h : (l.dropWhile p).head? = some ch) : p ch = false := by
  induction l with
  | nil => simp at h
  | cons x xs ih =>
    rw [List.dropWhile_cons] at h
    by_cases hx : p x
    · rw [if_pos hx] at h
      exact ih h
    · rw [if_neg hx] at h
      simp only [List.head?_cons, Option.some.injEq] at h
      subst h
      exact Bool.eq_false_iff.mpr hx

theorem rdropWhile_head? {α : Type} (p : α → Bool) (l : List α) (ch : α)
    (h : (l.rdropWhile p).head? = some ch) : l.head? = some ch := by
  obtain ⟨t, ht⟩ := List.rdropWhile_prefix p l
  cases hr : l.rdropWhile p with
  | nil => rw [hr] at h; simp at h
  | cons y ys =>
    rw [hr] at h ht
    simp only [List.head?_cons, Option.some.injEq] at h
    subst h
    rw [← ht]
    rfl

theorem normalizar_head (cod : String) (ch : Char)
    (h : (normalizar_codigo cod).data.head? = some ch) : ch.isWhitespace = false := by
  unfold normalizar_codigo at h
  exact dropWhile_head? _ _ _ (rdropWhile_head? _ _ _ h)

theorem strip_join (A B C : List Char)
    (hh : ∀ ch, A.head? = some ch → ch.isWhitespace = false) :
    List.rdropWhile Char.isWhitespace
        ((A ++ '.' :: (B ++ '.' :: (C ++ ['.', '0', '0']))).dropWhile Char.isWhitespace) =
      A ++ '.' :: (B ++ '.' :: (C ++ ['.', '0', '0'])) := by
  have hd : (A ++ '.' :: (B ++ '.' :: (C ++ ['.', '0', '0']))).dropWhile Char.isWhitespace =
      A ++ '.' :: (B ++ '.' :: (C ++ ['.', '0', '0'])) := by
    cases A with
    | nil =>
      rw [List.nil_append, List.dropWhile_cons, if_neg (by decide)]
    | cons a A' =>
      rw [List.cons_append, List.dropWhile_cons, if_neg (by simp [hh a rfl])]
  rw [hd]
  have hshape : A ++ '.' :: (B ++ '.' :: (C ++ ['.', '0', '0'])) =
      (A ++ '.' :: (B ++ '.' :: (C ++ ['.', '0']))) ++ ['0'] := by
    simp
  rw [hshape]
  exact List.rdropWhile_concat_neg Char.isWhitespace
    (A ++ '.' :: (B ++ '.' :: (C ++ ['.', '0']))) '0' (by decide)

theorem split_join (A B C : List Char)
    (hA : ∀ x ∈ A, ((x == '.') : Bool) = false)
    (hB : ∀ x ∈ B, ((x == '.') : Bool) = false)
    (hC : ∀ x ∈ C, ((x == '.') : Bool) = false) :
    (A ++ '.' :: (B ++ '.' :: (C ++ ['.', '0', '0']))).splitOnP (· == '.') =
      [A, B, C, ['0', '0']] := by
  have hA' : ∀ x ∈ A, ¬((x == '.') = true) := fun x hx => by simp [hA x hx]
  have hB' : ∀ x ∈ B, ¬((x == '.') = true) := fun x hx => by simp [hB x hx]
  have hC' : ∀ x ∈ C, ¬((x == '.') = true) := fun x hx => by simp [hC x hx]
  rw [List.splitOnP_first (fun x => x == '.') A hA' '.' (by decide)
    (B ++ '.' :: (C ++ ['.', '0', '0']))]
  rw [List.splitOnP_first (fun x => x == '.') B hB' '.' (by decide)
    (C ++ ['.', '0', '0'])]
  have hC00 : C ++ ['.', '0', '0'] = C ++ '.' :: ['0', '0'] := rfl
  rw [hC00, List.splitOnP_first (fun x => x == '.') C hC' '.' (by decide) ['0', '0']]
  rw [List.splitOnP_eq_single _ _ (by decide)]

/-! ## Facts about `codigo_blocos` -/

theorem blocos_length (cod : String) : (codigo_blocos cod).length = 4 := by
  unfold codigo_blocos
  have h1 : (((normalizar_codigo cod).data.splitOnP (· == '.')).map String.mk).length ≥ 1 := by
    have := List.splitOnP_ne_nil (· == '.') (normalizar_codigo cod).data
    cases hsp : (normalizar_codigo cod).data.splitOnP (· == '.') with
    | nil => exact absurd hsp this
    | cons h0 rest => simp [hsp]
  rw [List.length_take, List.length_append, List.length_replicate]
  omega

theorem list_four {α : Type} {l : List α} (h : l.length = 4) :
    ∃ a b c d, l = [a, b, c, d] := by
  rcases l with _ | ⟨a, l⟩
  · simp at h
  rcases l with _ | ⟨b, l⟩
  · simp at h
  rcases l with _ | ⟨c, l⟩
  · simp at h
  rcases l with _ | ⟨d, l⟩
  · simp at h
  rcases l with _ | ⟨e, l⟩
  · exact ⟨a, b, c, d, rfl⟩
  · simp only [List.length_cons] at h
    omega

theorem blocos_cases (cod : String) : ∃ a b c d, codigo_blocos cod = [a, b, c, d] :=
  list_four (blocos_length cod)

theorem blocos_sem_ponto (cod : String) :
    ∀ s ∈ codigo_blocos cod, ∀ x ∈ s.data, ((x == '.') : Bool) = false := by
  intro s hs x hx
  unfold codigo_blocos at hs
  have hs' := List.take_subset 4 _ hs
  rcases List.mem_append.mp hs' with hs' | hs'
  · obtain ⟨piece, hpiece, rfl⟩ := List.mem_map.mp hs'
    exact splitOnP_pieces _ _ piece hpiece x hx
  · have hs00 : s = "00" := List.eq_of_mem_replicate hs'
    subst hs00
    have hx' : x ∈ ['0', '0'] := hx
    rcases List.mem_cons.mp hx' with rfl | hx''
    · rfl
    rcases List.mem_cons.mp hx'' with rfl | hx'''
    · rfl
    · simp at hx'''

theorem blocos_head (cod : String) :
    ∃ rest, codigo_blocos cod =
      String.mk ((normalizar_codigo cod).data.takeWhile (fun x => !(x == '.'))) :: rest := by
  unfold codigo_blocos
  obtain ⟨rest, hrest⟩ := splitOnP_head_take (· == '.') (normalizar_codigo cod).data
  rw [hrest]
  exact ⟨_, rfl⟩

theorem primeiro_bloco_head (cod : String) (a : String) (rest : List String)
    (h : codigo_blocos cod = a :: rest) (ch : Char) (hch : a.data.head? = some ch) :
    ch.isWhitespace = false := by
  obtain ⟨rest', hrest'⟩ := blocos_head cod
  rw [h] at hrest'
  injection hrest' with h1 _
  subst h1
  exact normalizar_head cod ch (takeWhile_head? _ _ _ hch)

theorem data_mk (l : List Char) : (String.mk l).data = l := rfl

theorem mk_data (s : String) : String.mk s.data = s := rfl

theorem str_eq_of_data {s t : String} (h : s.data = t.data) : s = t := by
  cases s
  cases t
  cases h
  rfl

theorem blocos_do_join (a b c : String)
    (hA : ∀ x ∈ a.data, ((x == '.') : Bool) = false)
    (hB : ∀ x ∈ b.data, ((x == '.') : Bool) = false)
    (hC : ∀ x ∈ c.data, ((x == '.') : Bool) = false)
    (hh : ∀ ch, a.data.head? = some ch → ch.isWhitespace = false) :
    codigo_blocos (a ++ "." ++ b ++ "." ++ c ++ ".00") = [a, b, c, "00"] := by
  have hdot : (".").data = ['.'] := rfl
  have h00 : (".00").data = ['.', '0', '0'] := rfl
  have hdata : (a ++ "." ++ b ++ "." ++ c ++ ".00").data =
      a.data ++ '.' :: (b.data ++ '.' :: (c.data ++ ['.', '0', '0'])) := by
    simp [String.data_append, hdot, h00]
  unfold codigo_blocos normalizar_codigo
  rw [hdata, strip_join a.data b.data c.data hh, data_mk,
    split_join a.data b.data c.data hA hB hC]
  simp [mk_data]

theorem pais_shape (cod q : String) (hq : q ∈ codigo_pais cod) :
    ∃ a b c d, codigo_blocos cod = [a, b, c, d] ∧
      ((d ≠ "00" ∧ q = a ++ "." ++ b ++ "." ++ c ++ ".00") ∨
       (c ≠ "00" ∧ q = a ++ "." ++ b ++ ".00.00") ∨
       (b ≠ "00" ∧ q = a ++ ".00.00.00")) := by
  obtain ⟨a, b, c, d, hbloc⟩ := blocos_cases cod
  refine ⟨a, b, c, d, hbloc, ?_⟩
  unfold codigo_pais at hq
  rw [hbloc] at hq
  have hmem_ite : ∀ (P : Prop) (inst : Decidable P) (x : String),
      q ∈ (if P then [x] else []) → P ∧ q = x := by
    intro P inst x h
    by_cases hP : P
    · rw [if_pos hP] at h
      exact ⟨hP, List.mem_singleton.mp h⟩
    · rw [if_neg hP] at h
      simp at h
  rcases List.mem_append.mp hq with hq' | hq'
  · rcases List.mem_append.mp hq' with hq'' | hq''
    · obtain ⟨hP, hx⟩ := hmem_ite _ _ _ hq''
      exact Or.inl ⟨hP, hx⟩
    · obtain ⟨hP, hx⟩ := hmem_ite _ _ _ hq''
      exact Or.inr (Or.inl ⟨hP, hx⟩)
  · obtain ⟨hP, hx⟩ := hmem_ite _ _ _ hq'
    exact Or.inr (Or.inr ⟨hP, hx⟩)

theorem sem_ponto_00 : ∀ x ∈ ("00" : String).data, ((x == '.') : Bool) = false := by
  decide

theorem blocos_pais (cod q : String) (hq : q ∈ codigo_pais cod) :
    ∃ a b c d, codigo_blocos cod = [a, b, c, d] ∧
      ((d ≠ "00" ∧ codigo_blocos q = [a, b, c, "00"]) ∨
       (c ≠ "00" ∧ codigo_blocos q = [a, b, "00", "00"]) ∨
       (b ≠ "00" ∧ codigo_blocos q = [a, "00", "00", "00"])) := by
  obtain ⟨a, b, c, d, hbloc, hcase⟩ := pais_shape cod q hq
  have hmem : ∀ s ∈ ([a, b, c, d] : List String), s ∈ codigo_blocos cod := by
    intro s hs
    rw [hbloc]
    exact hs
  have hA : ∀ x ∈ a.data, ((x == '.') : Bool) = false :=
    blocos_sem_ponto cod a (hmem a (by simp))
  have hB : ∀ x ∈ b.data, ((x == '.') : Bool) = false :=
    blocos_sem_ponto cod b (hmem b (by simp))
  have hC : ∀ x ∈ c.data, ((x == '.') : Bool) = false :=
    blocos_sem_ponto cod c (hmem c (by simp))
  have hh : ∀ ch, a.data.head? = some ch → ch.isWhitespace = false :=
    primeiro_bloco_head cod a [b, c, d] hbloc
  refine ⟨a, b, c, d, hbloc, ?_⟩
  rcases hcase with ⟨hg, rfl⟩ | ⟨hg, rfl⟩ | ⟨hg, rfl⟩
  · exact Or.inl ⟨hg, blocos_do_join a b c hA hB hC hh⟩
  · refine Or.inr (Or.inl ⟨hg, ?_⟩)
    have hsplit : a ++ "." ++ b ++ ".00.00" = a ++ "." ++ b ++ "." ++ "00" ++ ".00" := by
      apply str_eq_of_data
      simp [String.data_append]
    rw [hsplit]
    exact blocos_do_join a b "00" hA hB sem_ponto_00 hh
  · refine Or.inr (Or.inr ⟨hg, ?_⟩)
    have hsplit : a ++ ".00.00.00" = a ++ "." ++ "00" ++ "." ++ "00" ++ ".00" := by
      apply str_eq_of_data
      simp [String.data_append]
    rw [hsplit]
    exact blocos_do_join a "00" "00" hA sem_ponto_00 sem_ponto_00 hh

theorem zeros_lista (x : String) (a b c d : String) (h : codigo_blocos x = [a, b, c, d]) :
    zeros x = (if a == "00" then 1 else 0) + (if b == "00" then 1 else 0) +
      (if c == "00" then 1 else 0) + (if d == "00" then 1 else 0) := by
  unfold zeros
  rw [h]
  by_cases h1 : (a == "00") = true <;> by_cases h2 : (b == "00") = true <;>
    by_cases h3 : (c == "00") = true <;> by_cases h4 : (d == "00") = true <;>
    simp [List.filter_cons, h1, h2, h3, h4]

theorem espec_lista (x : String) (a b c d : String) (h : codigo_blocos x = [a, b, c, d]) :
    especificidade x = (if a == "00" then 0 else 1) + (if b == "00" then 0 else 1) +
      (if c == "00" then 0 else 1) + (if d == "00" then 0 else 1) := by
  unfold especificidade
  rw [h]
  by_cases h1 : (a == "00") = true <;> by_cases h2 : (b == "00") = true <;>
    by_cases h3 : (c == "00") = true <;> by_cases h4 : (d == "00") = true <;>
    simp [List.filter_cons, bne, h1, h2, h3, h4]

theorem zeros_pais (cod q : String) (hq : q ∈ codigo_pais cod) : zeros cod < zeros q := by
  obtain ⟨a, b, c, d, hbloc, hcase⟩ := blocos_pais cod q hq
  have hz := zeros_lista cod a b c d hbloc
  have h0 : (("00" : String) == "00") = true := rfl
  rcases hcase with ⟨hg, hbq⟩ | ⟨hg, hbq⟩ | ⟨hg, hbq⟩ <;>
    rw [zeros_lista q _ _ _ _ hbq] at * <;>
    rw [hz] <;>
    simp only [h0, beq_eq_false_iff_ne.mpr hg, if_true, if_false, Bool.false_eq_true,
      ite_true, ite_false] <;>
    split_ifs <;> omega

theorem espec_pais (cod q : String) (hq : q ∈ codigo_pais cod) :
    especificidade q < especificidade cod := by
  obtain ⟨a, b, c, d, hbloc, hcase⟩ := blocos_pais cod q hq
  have hz := espec_lista cod a b c d hbloc
  have h0 : (("00" : String) == "00") = true := rfl
  rcases hcase with ⟨hg, hbq⟩ | ⟨hg, hbq⟩ | ⟨hg, hbq⟩ <;>
    rw [espec_lista q _ _ _ _ hbq] at * <;>
    rw [hz] <;>
    simp only [h0, beq_eq_false_iff_ne.mpr hg, if_true, if_false, Bool.false_eq_true,
      ite_true, ite_false] <;>
    split_ifs <;> omega

theorem pais_ne (cod q : String) (hq : q ∈ codigo_pais cod) : q ≠ cod := by
  intro h
  have := zeros_pais cod q hq
  rw [h] at this
  exact lt_irrefl _ this

theorem natureza_pais (cod q : String) (hfix : normalizar_codigo cod = cod)
    (hq : q ∈ codigo_pais cod) : natureza_derivada q = natureza_derivada cod := by
  obtain ⟨a, b, c, d, hbloc, hcase⟩ := pais_shape cod q hq
  obtain ⟨rest0, hhead⟩ := blocos_head cod
  rw [hbloc] at hhead
  injection hhead with ha _
  have hadata : a.data = cod.data.takeWhile (fun x => !(x == '.')) := by
    rw [ha, data_mk, hfix]
  have hq_data : ∃ rest, q.data = a.data ++ '.' :: rest := by
    have hdot : (".").data = ['.'] := rfl
    have h00 : (".00").data = ['.', '0', '0'] := rfl
    have h0000 : (".00.00").data = ['.', '0', '0', '.', '0', '0'] := rfl
    have h000000 : (".00.00.00").data = ['.', '0', '0', '.', '0', '0', '.', '0', '0'] := rfl
    rcases hcase with ⟨_, rfl⟩ | ⟨_, rfl⟩ | ⟨_, rfl⟩
    · exact ⟨b.data ++ '.' :: (c.data ++ ['.', '0', '0']),
        by simp [String.data_append, hdot, h00]⟩
    · exact ⟨b.data ++ ['.', '0', '0', '.', '0', '0'],
        by simp [String.data_append, hdot, h0000]⟩
    · exact ⟨['0', '0', '.', '0', '0', '.', '0', '0'],
        by simp [String.data_append, h000000]⟩
  obtain ⟨rest, hqd⟩ := hq_data
  unfold natureza_derivada
  rw [hqd]
  cases hcod : cod.data with
  | nil =>
    rw [hcod] at hadata
    simp only [List.takeWhile_nil] at hadata
    rw [hadata]
    simp
  | cons ch t =>
    rw [hcod] at hadata
    rw [List.takeWhile_cons] at hadata
    by_cases hch : ((!(ch == '.')) : Bool) = true
    · rw [if_pos hch] at hadata
      rw [hadata]
      simp
    · rw [if_neg hch] at hadata
      rw [hadata]
      have hdotch : ch = '.' := by
        have hbeq : (ch == '.') = true := by
          revert hch
          cases hcc : (ch == '.') <;> simp
        exact eq_of_beq hbeq
      subst hdotch
      simp

/-! ## Claim C7: the inferred parent relation is a forest -/

theorem pai_existente_spec {codes : List String} {cod p : String}
    (h : pai_existente codes cod = some p) :
    p ∈ codigo_pais cod ∧ p ∈ codes := by
  unfold pai_existente at h
  refine ⟨List.mem_of_find?_eq_some h, ?_⟩
  have := List.find?_some h
  simpa using this

theorem pai_iter_zeros (codes : List String) :
    ∀ (n : Nat) (x y : String), pai_iter codes n x = some y → zeros x + n ≤ zeros y := by
  intro n
  induction n with
  | zero =>
    intro x y h
    unfold pai_iter at h
    injection h with h
    subst h
    omega
  | succ n ih =>
    intro x y h
    unfold pai_iter at h
    cases hp : pai_existente codes x with
    | none => rw [hp] at h; cases h
    | some p =>
      rw [hp] at h
      have h1 := zeros_pais x p (pai_existente_spec hp).1
      have h2 := ih p y h
      omega

/-- Claim C7: the inferred parent relation is a forest — a code has at most
one parent (the resolver is a function), no code is its own parent, a parent
is strictly less specific (strictly fewer non-`"00"` blocks) than its child,
and no chain of parent links returns to its starting code. -/
theorem c7_floresta (codes : List String) (cod p : String)
    (h : pai_existente codes cod = some p) :
    (∀ q, pai_existente codes cod = some q → q = p) ∧
    p ≠ cod ∧
    especificidade p < especificidade cod ∧
    (∀ n : Nat, pai_iter codes (n + 1) cod ≠ some cod) := by
  have hp := (pai_existente_spec h).1
  refine ⟨?_, pais_ne cod p hp, espec_pais cod p hp, ?_⟩
  · intro q hq
    rw [h] at hq
    injection hq with hq
    exact hq.symm
  · intro n hcycle
    have := pai_iter_zeros codes (n + 1) cod cod hcycle
    omega

theorem c7_floresta_witness :
    (pai_existente ["1.00.00.00", "1.02.03.04"] "1.02.03.04" = some "1.00.00.00") ∧
    ((∀ q, pai_existente ["1.00.00.00", "1.02.03.04"] "1.02.03.04" = some q →
        q = "1.00.00.00") ∧
      "1.00.00.00" ≠ "1.02.03.04" ∧
      especificidade "1.00.00.00" < especificidade "1.02.03.04" ∧
      (∀ n : Nat, pai_iter ["1.00.00.00", "1.02.03.04"] (n + 1) "1.02.03.04" ≠
        some "1.02.03.04")) :=
  ⟨by decide,
    c7_floresta ["1.00.00.00", "1.02.03.04"] "1.02.03.04" "1.00.00.00" (by decide)⟩

/-! ## Claim C5: candidate ancestors, first-existing parent, roots -/

/-- Claim C5 counterexample: for the code `1.02.03.00` (fourth segment `"00"`)
the candidate list is not `a.b.c.00, a.b.00.00, a.00.00.00` — the first
candidate (which would be the code itself) is skipped — and with the account
set `{1.02.03.00}` the code is a root even though the claimed candidate list
would contain a member of the set. -/
theorem c5_counterexample :
    codigo_blocos "1.02.03.00" = ["1", "02", "03", "00"] ∧
    codigo_pais "1.02.03.00" = ["1.02.00.00", "1.00.00.00"] ∧
    codigo_pais "1.02.03.00" ≠ ["1.02.03.00", "1.02.00.00", "1.00.00.00"] ∧
    tem_pai ["1.02.03.00"] "1.02.03.00" = false := by
  refine ⟨by decide, by decide, by decide, by decide⟩

/-- Claim C5 (amended): for a code with padded blocks `a.b.c.d` the candidate
ancestors are `a.b.c.00` (only when `d ≠ "00"`), then `a.b.00.00` (only when
`c ≠ "00"`), then `a.00.00.00` (only when `b ≠ "00"`), in decreasing
specificity; the inferred parent is the first candidate present in the
account set (intermediate missing levels are skipped — with account set
`{1.00.00.00, 1.02.03.04}` the parent of `1.02.03.04` is `1.00.00.00`); and
a code is a root (has no parent) iff none of its candidates is present. -/
theorem c5_candidatos (codes : List String) (cod : String) (a b c d : String)
    (hbloc : codigo_blocos cod = [a, b, c, d]) :
    codigo_pais cod =
      (if d ≠ "00" then [a ++ "." ++ b ++ "." ++ c ++ ".00"] else []) ++
      (if c ≠ "00" then [a ++ "." ++ b ++ ".00.00"] else []) ++
      (if b ≠ "00" then [a ++ ".00.00.00"] else []) ∧
    pai_existente codes cod = (codigo_pais cod).find? (fun p => codes.contains p) ∧
    (tem_pai codes cod = false ↔ ∀ p ∈ codigo_pais cod, p ∉ codes) ∧
    pai_existente ["1.00.00.00", "1.02.03.04"] "1.02.03.04" = some "1.00.00.00" := by
  refine ⟨?_, rfl, ?_, by decide⟩
  · unfold codigo_pais
    rw [hbloc]
  · unfold tem_pai
    rw [List.any_eq_false]
    constructor
    · intro h p hp hmem
      exact h p hp (by simpa using hmem)
    · intro h p hp hc
      exact h p hp (by simpa using hc)

theorem c5_candidatos_witness :
    (codigo_blocos "1.02.03.04" = ["1", "02", "03", "04"]) ∧
    (codigo_pais "1.02.03.04" =
      (if "04" ≠ "00" then ["1" ++ "." ++ "02" ++ "." ++ "03" ++ ".00"] else []) ++
      (if "03" ≠ "00" then ["1" ++ "." ++ "02" ++ ".00.00"] else []) ++
      (if "02" ≠ "00" then ["1" ++ ".00.00.00"] else []) ∧
    pai_existente ["1.00.00.00", "1.02.03.04"] "1.02.03.04" =
      (codigo_pais "1.02.03.04").find?
        (fun p => (["1.00.00.00", "1.02.03.04"] : List String).contains p) ∧
    (tem_pai ["1.00.00.00", "1.02.03.04"] "1.02.03.04" = false ↔
      ∀ p ∈ codigo_pais "1.02.03.04", p ∉ (["1.00.00.00", "1.02.03.04"] : List String)) ∧
    pai_existente ["1.00.00.00", "1.02.03.04"] "1.02.03.04" = some "1.00.00.00") :=
  ⟨by decide,
    c5_candidatos ["1.00.00.00", "1.02.03.04"] "1.02.03.04" "1" "02" "03" "04" (by decide)⟩

/-! ## Claim C8: malformed codes are padded and kept -/

theorem filhos_mem (codes : List String) (p ch : String) :
    ch ∈ filhos codes p ↔ ch ∈ codes ∧ pai_existente codes ch = some p := by
  unfold filhos
  rw [List.mem_mergeSort, List.mem_dedup, List.mem_filter]
  constructor
  · intro ⟨h1, h2⟩
    exact ⟨h1, by simpa using h2⟩
  · intro ⟨h1, h2⟩
    exact ⟨h1, by simpa using h2⟩

/-- Claim C8 counterexample: the malformed (two-segment) code `1.2` is padded
to `1.2.00.00`, and with the account set `{1.00.00.00, 1.2}` it is *not*
treated as a root: its candidate ancestor `1.00.00.00` exists, so it becomes
a child of `1.00.00.00`. -/
theorem c8_counterexample :
    codigo_malformado "1.2" = true ∧
    pai_existente ["1.00.00.00", "1.2"] "1.2" = some "1.00.00.00" ∧
    tem_pai ["1.00.00.00", "1.2"] "1.2" = true := by
  refine ⟨by decide, by decide, by decide⟩

/-- Claim C8 (amended): an account with a malformed code (fewer than four
dot-separated segments, or a non-numeric segment) is right-padded to four
blocks with `"00"` and kept in the hierarchy, never rejected: it becomes a
root iff none of its padded-ancestor candidates exists in the account set,
and otherwise it is a child of its first existing candidate ancestor. -/
theorem c8_malformado_mantido (codes : List String) (cod : String)
    (_hmal : codigo_malformado cod = true) (hmem : cod ∈ codes) :
    (codigo_blocos cod).length = 4 ∧
    (tem_pai codes cod = false ↔ pai_existente codes cod = none) ∧
    (∀ p, pai_existente codes cod = some p → cod ∈ filhos codes p) ∧
    (pai_existente codes cod = none → ∀ p, cod ∉ filhos codes p) := by
  refine ⟨blocos_length cod, ?_, ?_, ?_⟩
  · unfold tem_pai pai_existente
    rw [List.any_eq_false, List.find?_eq_none]
  · intro p hp
    rw [filhos_mem]
    exact ⟨hmem, hp⟩
  · intro hnone p hmemf
    rw [filhos_mem] at hmemf
    obtain ⟨_, h2⟩ := hmemf
    rw [hnone] at h2
    cases h2

theorem c8_malformado_mantido_witness :
    codigo_malformado "1.2" = true ∧ "1.2" ∈ ["1.00.00.00", "1.2"] ∧
    ((codigo_blocos "1.2").length = 4 ∧
      (tem_pai ["1.00.00.00", "1.2"] "1.2" = false ↔
        pai_existente ["1.00.00.00", "1.2"] "1.2" = none) ∧
      (∀ p, pai_existente ["1.00.00.00", "1.2"] "1.2" = some p →
        "1.2" ∈ filhos ["1.00.00.00", "1.2"] p) ∧
      (pai_existente ["1.00.00.00", "1.2"] "1.2" = none →
        ∀ p, "1.2" ∉ filhos ["1.00.00.00", "1.2"] p)) :=
  ⟨by decide, by decide,
    c8_malformado_mantido ["1.00.00.00", "1.2"] "1.2" (by decide) (by decide)⟩

/-! ## Claim C10: only the first four segments are used -/

theorem blocos_of_ge4 (cod : String)
    (h4 : 4 ≤ ((normalizar_codigo cod).data.splitOnP (· == '.')).length) :
    codigo_blocos cod =
      (((normalizar_codigo cod).data.splitOnP (· == '.')).map String.mk).take 4 := by
  simp only [codigo_blocos]
  have h0 : 4 - (((normalizar_codigo cod).data.splitOnP (· == '.')).map String.mk).length
      = 0 := by
    rw [List.length_map]
    omega
  rw [h0, List.replicate_zero, List.append_nil]

/-- Claim C10: for every code with at least four dot-separated segments, only
the first four segments matter — any code with the same first four segments
has the same padded blocks, the same candidate ancestors, and the same
synthetic flag; in particular `1.02.03.04.05` behaves exactly like
`1.02.03.04`. -/
theorem c10_quatro_segmentos (cod cod' : String)
    (h4 : 4 ≤ ((normalizar_codigo cod).data.splitOnP (· == '.')).length)
    (hpref : (((normalizar_codigo cod').data.splitOnP (· == '.')).map String.mk).take 4 =
      (((normalizar_codigo cod).data.splitOnP (· == '.')).map String.mk).take 4) :
    codigo_blocos cod' = codigo_blocos cod ∧
    codigo_pais cod' = codigo_pais cod ∧
    eh_sintetico cod' = eh_sintetico cod := by
  have h4' : 4 ≤ ((normalizar_codigo cod').data.splitOnP (· == '.')).length := by
    have h1 : ((((normalizar_codigo cod').data.splitOnP (· == '.')).map String.mk).take
        4).length =
        ((((normalizar_codigo cod).data.splitOnP (· == '.')).map String.mk).take
          4).length := by
      rw [hpref]
    rw [List.length_take, List.length_take, List.length_map, List.length_map] at h1
    omega
  have hb : codigo_blocos cod' = codigo_blocos cod := by
    rw [blocos_of_ge4 cod h4, blocos_of_ge4 cod' h4', hpref]
  refine ⟨hb, ?_, ?_⟩
  · unfold codigo_pais
    rw [hb]
  · unfold eh_sintetico
    rw [hb]

theorem c10_quatro_segmentos_witness :
    (4 ≤ ((normalizar_codigo "1.02.03.04.05").data.splitOnP (· == '.')).length) ∧
    ((((normalizar_codigo "1.02.03.04").data.splitOnP (· == '.')).map String.mk).take 4 =
      (((normalizar_codigo "1.02.03.04.05").data.splitOnP (· == '.')).map String.mk).take
        4) ∧
    (codigo_blocos "1.02.03.04" = codigo_blocos "1.02.03.04.05" ∧
      codigo_pais "1.02.03.04" = codigo_pais "1.02.03.04.05" ∧
      eh_sintetico "1.02.03.04" = eh_sintetico "1.02.03.04.05") :=
  ⟨by decide, by decide,
    c10_quatro_segmentos "1.02.03.04.05" "1.02.03.04" (by decide) (by decide)⟩

/-! ## Claim C6: the roll-up aggregation -/

theorem zeros_le (x : String) : zeros x ≤ 4 := by
  obtain ⟨a, b, c, d, h⟩ := blocos_cases x
  rw [zeros_lista x a b c d h]
  split_ifs <;> omega

theorem filhos_zeros {codes : List String} {p ch : String}
    (h : ch ∈ filhos codes p) : zeros ch < zeros p := by
  have h2 := (filhos_mem codes p ch).mp h
  exact zeros_pais ch p (pai_existente_spec h2.2).1

theorem total_no_succ (plano : List Conta) (periodo : List Mov) (fuel : Nat)
    (cod nat : String) :
    total_no plano periodo (fuel + 1) cod nat =
      soma_por_codigo periodo cod nat +
      (((filhos (codigos_plano plano) cod).filter
          (fun ch => (natureza_de plano ch).getD nat == nat)).map
        (fun ch => total_no plano periodo fuel ch nat)).sum := rfl

theorem total_no_stable (plano : List Conta) (periodo : List Mov) :
    ∀ (z : Nat) (cod nat : String) (f₁ f₂ : Nat), zeros cod ≤ z →
      zeros cod < f₁ → zeros cod < f₂ →
      total_no plano periodo f₁ cod nat = total_no plano periodo f₂ cod nat := by
  intro z
  induction z with
  | zero =>
    intro cod nat f₁ f₂ hz h1 h2
    obtain ⟨g₁, rfl⟩ : ∃ g, f₁ = g + 1 := ⟨f₁ - 1, by omega⟩
    obtain ⟨g₂, rfl⟩ : ∃ g, f₂ = g + 1 := ⟨f₂ - 1, by omega⟩
    have hemp : filhos (codigos_plano plano) cod = [] := by
      rw [List.eq_nil_iff_forall_not_mem]
      intro ch hch
      have := filhos_zeros hch
      omega
    rw [total_no_succ, total_no_succ, hemp]
    simp
  | succ z ih =>
    intro cod nat f₁ f₂ hz h1 h2
    obtain ⟨g₁, rfl⟩ : ∃ g, f₁ = g + 1 := ⟨f₁ - 1, by omega⟩
    obtain ⟨g₂, rfl⟩ : ∃ g, f₂ = g + 1 := ⟨f₂ - 1, by omega⟩
    rw [total_no_succ, total_no_succ]
    congr 1
    congr 1
    apply List.map_congr_left
    intro ch hch
    have hch' : zeros ch < zeros cod := filhos_zeros (List.mem_of_mem_filter hch)
    exact ih ch nat g₁ g₂ (by omega) (by omega) (by omega)

theorem total_conta_eq (plano : List Conta) (periodo : List Mov) (cod nat : String) :
    total_conta plano periodo cod nat =
      soma_por_codigo periodo cod nat +
      (((filhos (codigos_plano plano) cod).filter
          (fun ch => (natureza_de plano ch).getD nat == nat)).map
        (fun ch => total_conta plano periodo ch nat)).sum := by
  unfold total_conta
  have h5 : (5 : Nat) = 4 + 1 := rfl
  rw [h5, total_no_succ]
  congr 1
  congr 1
  apply List.map_congr_left
  intro ch hch
  have hch' : zeros ch < zeros cod := filhos_zeros (List.mem_of_mem_filter hch)
  have hcod := zeros_le cod
  exact total_no_stable plano periodo (zeros ch) ch nat 4 5 le_rfl (by omega) (by omega)

theorem codes_mem (plano : List Conta) (cod : String) :
    cod ∈ codigos_plano plano ↔ ∃ p ∈ plano, normalizar_codigo p.codigo = cod := by
  unfold codigos_plano
  rw [List.mem_dedup, List.mem_map]

theorem codes_strip_fix (plano : List Conta)
    (HS : ∀ p ∈ plano, normalizar_codigo p.codigo = p.codigo) {cod : String}
    (h : cod ∈ codigos_plano plano) : normalizar_codigo cod = cod := by
  obtain ⟨p, hp, hfix⟩ := (codes_mem plano cod).mp h
  rw [← hfix, HS p hp]
  exact HS p hp

theorem natureza_de_eq (plano : List Conta)
    (HS : ∀ p ∈ plano, normalizar_codigo p.codigo = p.codigo)
    (HN : ∀ p ∈ plano, p.natureza = natureza_derivada p.codigo)
    {cod : String} (h : cod ∈ codigos_plano plano) :
    natureza_de plano cod = some (natureza_derivada cod) := by
  obtain ⟨p0, hp0, hfix0⟩ := (codes_mem plano cod).mp h
  unfold natureza_de
  cases hfind : plano.reverse.find? (fun p => normalizar_codigo p.codigo == cod) with
  | none =>
    rw [List.find?_eq_none] at hfind
    exact absurd (by simp [hfix0] : (normalizar_codigo p0.codigo == cod) = true)
      (hfind p0 (List.mem_reverse.mpr hp0))
  | some q =>
    have hq1 := List.find?_some hfind
    have hq2 : q ∈ plano := List.mem_reverse.mp (List.mem_of_find?_eq_some hfind)
    have hqc : q.codigo = cod := by
      have hq3 : normalizar_codigo q.codigo = cod := by simpa using hq1
      rw [HS q hq2] at hq3
      exact hq3
    simp only [Option.map_some']
    rw [HN q hq2, hqc]

theorem prof_zero (codes : List String) (x : String) : profundidade codes 0 x = 0 := rfl

theorem prof_succ_none (codes : List String) (f : Nat) (x : String)
    (h : pai_existente codes x = none) : profundidade codes (f + 1) x = 0 := by
  unfold profundidade
  rw [h]

theorem prof_succ_some (codes : List String) (f : Nat) (x p : String)
    (h : pai_existente codes x = some p) :
    profundidade codes (f + 1) x = profundidade codes f p + 1 := by
  simp only [profundidade]
  rw [h]

theorem prof_stable (codes : List String) :
    ∀ (z : Nat) (x : String) (f₁ f₂ : Nat), 4 - zeros x ≤ z →
      4 - zeros x < f₁ → 4 - zeros x < f₂ →
      profundidade codes f₁ x = profundidade codes f₂ x := by
  intro z
  induction z with
  | zero =>
    intro x f₁ f₂ hz h1 h2
    obtain ⟨g₁, rfl⟩ : ∃ g, f₁ = g + 1 := ⟨f₁ - 1, by omega⟩
    obtain ⟨g₂, rfl⟩ : ∃ g, f₂ = g + 1 := ⟨f₂ - 1, by omega⟩
    cases hp : pai_existente codes x with
    | none => rw [prof_succ_none codes g₁ x hp, prof_succ_none codes g₂ x hp]
    | some p =>
      have ha := zeros_pais x p (pai_existente_spec hp).1
      have hb := zeros_le p
      omega
  | succ z ih =>
    intro x f₁ f₂ hz h1 h2
    obtain ⟨g₁, rfl⟩ : ∃ g, f₁ = g + 1 := ⟨f₁ - 1, by omega⟩
    obtain ⟨g₂, rfl⟩ : ∃ g, f₂ = g + 1 := ⟨f₂ - 1, by omega⟩
    cases hp : pai_existente codes x with
    | none => rw [prof_succ_none codes g₁ x hp, prof_succ_none codes g₂ x hp]
    | some p =>
      rw [prof_succ_some codes g₁ x p hp, prof_succ_some codes g₂ x p hp]
      congr 1
      have ha := zeros_pais x p (pai_existente_spec hp).1
      have hb := zeros_le p
      exact ih p g₁ g₂ (by omega) (by omega) (by omega)

theorem prof5_eq (codes : List String) (x p : String)
    (h : pai_existente codes x = some p) :
    profundidade codes 5 x = profundidade codes 5 p + 1 := by
  have h5 : (5 : Nat) = 4 + 1 := rfl
  rw [h5, prof_succ_some codes 4 x p h]
  congr 1
  have ha := zeros_pais x p (pai_existente_spec h).1
  have hb := zeros_le p
  exact prof_stable codes (4 - zeros p) p 4 5 le_rfl (by omega) (by omega)

theorem prof5_zero_iff (codes : List String) (x : String) :
    profundidade codes 5 x = 0 ↔ pai_existente codes x = none := by
  constructor
  · intro h
    cases hp : pai_existente codes x with
    | none => rfl
    | some p =>
      rw [prof5_eq codes x p hp] at h
      omega
  · intro h
    have h5 : (5 : Nat) = 4 + 1 := rfl
    rw [h5, prof_succ_none codes 4 x h]

theorem prof5_le (codes : List String) :
    ∀ (z : Nat) (x : String), 4 - zeros x ≤ z →
      profundidade codes 5 x ≤ 4 - zeros x := by
  intro z
  induction z with
  | zero =>
    intro x hz
    cases hp : pai_existente codes x with
    | none =>
      rw [(prof5_zero_iff codes x).mpr hp]
      omega
    | some p =>
      have ha := zeros_pais x p (pai_existente_spec hp).1
      have hb := zeros_le p
      omega
  | succ z ih =>
    intro x hz
    cases hp : pai_existente codes x with
    | none =>
      rw [(prof5_zero_iff codes x).mpr hp]
      omega
    | some p =>
      rw [prof5_eq codes x p hp]
      have h1 := zeros_pais x p (pai_existente_spec hp).1
      have h2 := zeros_le p
      have h3 := ih p (by omega)
      omega

theorem tem_pai_iff (codes : List String) (x : String) :
    tem_pai codes x = false ↔ pai_existente codes x = none := by
  unfold tem_pai pai_existente
  rw [List.any_eq_false, List.find?_eq_none]

theorem camada_zero (plano : List Conta) (nat : String) :
    camada plano nat 0 = raizes plano nat := rfl

theorem camada_succ (plano : List Conta) (nat : String) (k : Nat) :
    camada plano nat (k + 1) =
      (camada plano nat k).flatMap (fun c => filhos (codigos_plano plano) c) := rfl

theorem camada_mem (plano : List Conta) (nat : String)
    (HS : ∀ p ∈ plano, normalizar_codigo p.codigo = p.codigo)
    (HN : ∀ p ∈ plano, p.natureza = natureza_derivada p.codigo) :
    ∀ (k : Nat) (x : String), x ∈ camada plano nat k ↔
      x ∈ codigos_plano plano ∧ natureza_de plano x = some nat ∧
        profundidade (codigos_plano plano) 5 x = k := by
  intro k
  induction k with
  | zero =>
    intro x
    rw [camada_zero]
    unfold raizes
    rw [List.mem_mergeSort, List.mem_filter]
    constructor
    · rintro ⟨hx, hcond⟩
      simp only [Bool.and_eq_true, Bool.not_eq_true'] at hcond
      obtain ⟨h1, h2⟩ := hcond
      exact ⟨hx, by simpa using h2, (prof5_zero_iff _ x).mpr ((tem_pai_iff _ x).mp h1)⟩
    · rintro ⟨hx, hnat, hprof⟩
      refine ⟨hx, ?_⟩
      simp only [Bool.and_eq_true, Bool.not_eq_true']
      exact ⟨(tem_pai_iff _ x).mpr ((prof5_zero_iff _ x).mp hprof), by simpa using hnat⟩
  | succ k ih =>
    intro x
    rw [camada_succ, List.mem_flatMap]
    constructor
    · rintro ⟨p, hpL, hchild⟩
      obtain ⟨hp1, hp2, hp3⟩ := (ih p).mp hpL
      obtain ⟨hx1, hx2⟩ := (filhos_mem _ p x).mp hchild
      have hqmem := (pai_existente_spec hx2).1
      have hfx : normalizar_codigo x = x := codes_strip_fix plano HS hx1
      have hnd : natureza_derivada p = natureza_derivada x := natureza_pais x p hfx hqmem
      have hpd : natureza_derivada p = nat := by
        rw [natureza_de_eq plano HS HN hp1] at hp2
        injection hp2
      refine ⟨hx1, ?_, ?_⟩
      · rw [natureza_de_eq plano HS HN hx1, ← hnd, hpd]
      · rw [prof5_eq _ x p hx2, hp3]
    · rintro ⟨hx1, hx2, hx3⟩
      cases hp : pai_existente (codigos_plano plano) x with
      | none =>
        rw [(prof5_zero_iff _ x).mpr hp] at hx3
        omega
      | some p =>
        have hpm : p ∈ codigos_plano plano := (pai_existente_spec hp).2
        have hprof : profundidade (codigos_plano plano) 5 p = k := by
          have he := prof5_eq _ x p hp
          omega
        have hfx : normalizar_codigo x = x := codes_strip_fix plano HS hx1
        have hnd := natureza_pais x p hfx (pai_existente_spec hp).1
        have hxd : natureza_derivada x = nat := by
          rw [natureza_de_eq plano HS HN hx1] at hx2
          injection hx2
        have hpnat : natureza_de plano p = some nat := by
          rw [natureza_de_eq plano HS HN hpm, hnd, hxd]
        exact ⟨p, (ih p).mpr ⟨hpm, hpnat, hprof⟩, (filhos_mem _ p x).mpr ⟨hx1, hp⟩⟩

theorem filhos_nodup (codes : List String) (p : String) : (filhos codes p).Nodup := by
  unfold filhos
  exact ((List.mergeSort_perm _ _).nodup_iff).mpr (List.nodup_dedup _)

theorem raizes_nodup (plano : List Conta) (nat : String) : (raizes plano nat).Nodup := by
  unfold raizes
  exact ((List.mergeSort_perm _ _).nodup_iff).mpr ((List.nodup_dedup _).filter _)

theorem flatMap_filhos_nodup (codes : List String) :
    ∀ (L : List String), L.Nodup → (L.flatMap (fun c => filhos codes c)).Nodup := by
  intro L
  induction L with
  | nil =>
    intro _
    simp
  | cons p L ih =>
    intro hL
    obtain ⟨hp, hL2⟩ := List.nodup_cons.mp hL
    rw [List.flatMap_cons, List.nodup_append]
    refine ⟨filhos_nodup codes p, ih hL2, ?_⟩
    intro x hx1 hx2
    obtain ⟨q, hq, hxq⟩ := List.mem_flatMap.mp hx2
    obtain ⟨_, h1⟩ := (filhos_mem codes p x).mp hx1
    obtain ⟨_, h2⟩ := (filhos_mem codes q x).mp hxq
    have hpq : p = q := by
      rw [h1] at h2
      injection h2
    subst hpq
    exact hp hq

theorem camada_nodup (plano : List Conta) (nat : String) :
    ∀ k, (camada plano nat k).Nodup := by
  intro k
  induction k with
  | zero => exact raizes_nodup plano nat
  | succ k ih =>
    rw [camada_succ]
    exact flatMap_filhos_nodup (codigos_plano plano) (camada plano nat k) ih

theorem camada5_nil (plano : List Conta) (nat : String)
    (HS : ∀ p ∈ plano, normalizar_codigo p.codigo = p.codigo)
    (HN : ∀ p ∈ plano, p.natureza = natureza_derivada p.codigo) :
    camada plano nat 5 = [] := by
  rw [List.eq_nil_iff_forall_not_mem]
  intro x hx
  obtain ⟨hx1, _, hx3⟩ := (camada_mem plano nat HS HN 5 x).mp hx
  have h1 := prof5_le (codigos_plano plano) (4 - zeros x) x le_rfl
  omega

theorem soma_camada_step (plano : List Conta) (periodo : List Mov) (nat : String)
    (HS : ∀ p ∈ plano, normalizar_codigo p.codigo = p.codigo)
    (HN : ∀ p ∈ plano, p.natureza = natureza_derivada p.codigo) (k : Nat) :
    ((camada plano nat k).map (fun c => total_conta plano periodo c nat)).sum =
      ((camada plano nat k).map (fun c => soma_por_codigo periodo c nat)).sum +
      ((camada plano nat (k + 1)).map (fun c => total_conta plano periodo c nat)).sum := by
  have hstep : ∀ x ∈ camada plano nat k,
      total_conta plano periodo x nat =
        soma_por_codigo periodo x nat +
        ((filhos (codigos_plano plano) x).map
          (fun ch => total_conta plano periodo ch nat)).sum := by
    intro x hx
    rw [total_conta_eq]
    obtain ⟨hx1, hx2, _⟩ := (camada_mem plano nat HS HN k x).mp hx
    have hfe : (filhos (codigos_plano plano) x).filter
        (fun ch => (natureza_de plano ch).getD nat == nat) =
        filhos (codigos_plano plano) x := by
      apply List.filter_eq_self.mpr
      intro ch hch
      obtain ⟨hch1, hch2⟩ := (filhos_mem _ x ch).mp hch
      have hfch : normalizar_codigo ch = ch := codes_strip_fix plano HS hch1
      have hnd := natureza_pais ch x hfch (pai_existente_spec hch2).1
      have hxd : natureza_derivada x = nat := by
        rw [natureza_de_eq plano HS HN hx1] at hx2
        injection hx2
      have hde : natureza_de plano ch = some nat := by
        rw [natureza_de_eq plano HS HN hch1, ← hnd, hxd]
      rw [hde]
      simp
    rw [hfe]
  rw [List.map_congr_left hstep, List.sum_map_add]
  congr 1
  rw [camada_succ, List.map_flatMap, List.flatMap_def, List.sum_flatten, List.map_map]
  rfl

theorem raizes_total_telescope (plano : List Conta) (periodo : List Mov) (nat : String)
    (HS : ∀ p ∈ plano, normalizar_codigo p.codigo = p.codigo)
    (HN : ∀ p ∈ plano, p.natureza = natureza_derivada p.codigo) :
    ((raizes plano nat).map (fun c => total_conta plano periodo c nat)).sum =
      ((camada plano nat 0).map (fun c => soma_por_codigo periodo c nat)).sum +
      ((camada plano nat 1).map (fun c => soma_por_codigo periodo c nat)).sum +
      ((camada plano nat 2).map (fun c => soma_por_codigo periodo c nat)).sum +
      ((camada plano nat 3).map (fun c => soma_por_codigo periodo c nat)).sum +
      ((camada plano nat 4).map (fun c => soma_por_codigo periodo c nat)).sum := by
  have h0 : ((camada plano nat 0).map (fun c => total_conta plano periodo c nat)).sum =
      ((camada plano nat 0).map (fun c => soma_por_codigo periodo c nat)).sum +
      ((camada plano nat 1).map (fun c => total_conta plano periodo c nat)).sum :=
    soma_camada_step plano periodo nat HS HN 0
  have h1 : ((camada plano nat 1).map (fun c => total_conta plano periodo c nat)).sum =
      ((camada plano nat 1).map (fun c => soma_por_codigo periodo c nat)).sum +
      ((camada plano nat 2).map (fun c => total_conta plano periodo c nat)).sum :=
    soma_camada_step plano periodo nat HS HN 1
  have h2 : ((camada plano nat 2).map (fun c => total_conta plano periodo c nat)).sum =
      ((camada plano nat 2).map (fun c => soma_por_codigo periodo c nat)).sum +
      ((camada plano nat 3).map (fun c => total_conta plano periodo c nat)).sum :=
    soma_camada_step plano periodo nat HS HN 2
  have h3 : ((camada plano nat 3).map (fun c => total_conta plano periodo c nat)).sum =
      ((camada plano nat 3).map (fun c => soma_por_codigo periodo c nat)).sum +
      ((camada plano nat 4).map (fun c => total_conta plano periodo c nat)).sum :=
    soma_camada_step plano periodo nat HS HN 3
  have h4 : ((camada plano nat 4).map (fun c => total_conta plano periodo c nat)).sum =
      ((camada plano nat 4).map (fun c => soma_por_codigo periodo c nat)).sum +
      ((camada plano nat 5).map (fun c => total_conta plano periodo c nat)).sum :=
    soma_camada_step plano periodo nat HS HN 4
  have h5 : camada plano nat 5 = [] := camada5_nil plano nat HS HN
  rw [← camada_zero plano nat, h0, h1, h2, h3, h4, h5]
  simp only [List.map_nil, List.sum_nil, add_zero]
  ring

theorem camadas_perm (plano : List Conta) (nat : String)
    (HS : ∀ p ∈ plano, normalizar_codigo p.codigo = p.codigo)
    (HN : ∀ p ∈ plano, p.natureza = natureza_derivada p.codigo) :
    (camada plano nat 0 ++ (camada plano nat 1 ++ (camada plano nat 2 ++
      (camada plano nat 3 ++ camada plano nat 4)))).Perm
      ((codigos_plano plano).filter (fun c => natureza_de plano c == some nat)) := by
  have hdisj : ∀ i j : Nat, i ≠ j →
      ∀ x, x ∈ camada plano nat i → x ∈ camada plano nat j → False := by
    intro i j hij x hxi hxj
    have h1 := ((camada_mem plano nat HS HN i x).mp hxi).2.2
    have h2 := ((camada_mem plano nat HS HN j x).mp hxj).2.2
    omega
  have hn34 : (camada plano nat 3 ++ camada plano nat 4).Nodup := by
    rw [List.nodup_append]
    exact ⟨camada_nodup plano nat 3, camada_nodup plano nat 4,
      fun x hx3 hx4 => hdisj 3 4 (by omega) x hx3 hx4⟩
  have hn234 : (camada plano nat 2 ++ (camada plano nat 3 ++ camada plano nat 4)).Nodup := by
    rw [List.nodup_append]
    refine ⟨camada_nodup plano nat 2, hn34, ?_⟩
    intro x hx2 hx
    rcases List.mem_append.mp hx with h | h
    · exact hdisj 2 3 (by omega) x hx2 h
    · exact hdisj 2 4 (by omega) x hx2 h
  have hn1234 : (camada plano nat 1 ++ (camada plano nat 2 ++
      (camada plano nat 3 ++ camada plano nat 4))).Nodup := by
    rw [List.nodup_append]
    refine ⟨camada_nodup plano nat 1, hn234, ?_⟩
    intro x hx1 hx
    rcases List.mem_append.mp hx with h | h
    · exact hdisj 1 2 (by omega) x hx1 h
    · rcases List.mem_append.mp h with h | h
      · exact hdisj 1 3 (by omega) x hx1 h
      · exact hdisj 1 4 (by omega) x hx1 h
  have hn01234 : (camada plano nat 0 ++ (camada plano nat 1 ++ (camada plano nat 2 ++
      (camada plano nat 3 ++ camada plano nat 4)))).Nodup := by
    rw [List.nodup_append]
    refine ⟨camada_nodup plano nat 0, hn1234, ?_⟩
    intro x hx0 hx
    rcases List.mem_append.mp hx with h | h
    · exact hdisj 0 1 (by omega) x hx0 h
    · rcases List.mem_append.mp h with h | h
      · exact hdisj 0 2 (by omega) x hx0 h
      · rcases List.mem_append.mp h with h | h
        · exact hdisj 0 3 (by omega) x hx0 h
        · exact hdisj 0 4 (by omega) x hx0 h
  have hnf : (((codigos_plano plano).filter
      (fun c => natureza_de plano c == some nat))).Nodup :=
    (List.nodup_dedup _).filter _
  rw [List.perm_ext_iff_of_nodup hn01234 hnf]
  intro a
  simp only [List.mem_append, List.mem_filter]
  constructor
  · intro h
    rcases h with h | h | h | h | h
    all_goals
      obtain ⟨h1, h2, _⟩ := (camada_mem plano nat HS HN _ a).mp h
    all_goals
      exact ⟨h1, by simp [h2]⟩
  · rintro ⟨h1, h2⟩
    have h2a : natureza_de plano a = some nat := by simpa using h2
    have hz := zeros_le a
    have hb := prof5_le (codigos_plano plano) (4 - zeros a) a le_rfl
    have h04 : profundidade (codigos_plano plano) 5 a = 0 ∨
        profundidade (codigos_plano plano) 5 a = 1 ∨
        profundidade (codigos_plano plano) 5 a = 2 ∨
        profundidade (codigos_plano plano) 5 a = 3 ∨
        profundidade (codigos_plano plano) 5 a = 4 := by omega
    rcases h04 with h | h | h | h | h
    · exact Or.inl ((camada_mem plano nat HS HN 0 a).mpr ⟨h1, h2a, h⟩)
    · exact Or.inr (Or.inl ((camada_mem plano nat HS HN 1 a).mpr ⟨h1, h2a, h⟩))
    · exact Or.inr (Or.inr (Or.inl ((camada_mem plano nat HS HN 2 a).mpr ⟨h1, h2a, h⟩)))
    · exact Or.inr (Or.inr (Or.inr (Or.inl
        ((camada_mem plano nat HS HN 3 a).mpr ⟨h1, h2a, h⟩))))
    · exact Or.inr (Or.inr (Or.inr (Or.inr
        ((camada_mem plano nat HS HN 4 a).mpr ⟨h1, h2a, h⟩))))

theorem sum_indicador (x : String) (v : ℚ) :
    ∀ (K : List String), K.Nodup →
      (K.map (fun c => if x = c then v else 0)).sum = if x ∈ K then v else 0 := by
  intro K
  induction K with
  | nil =>
    intro _
    simp
  | cons c K ih =>
    intro hK
    obtain ⟨hc, hK2⟩ := List.nodup_cons.mp hK
    rw [List.map_cons, List.sum_cons, ih hK2]
    by_cases hx : x = c
    · subst hx
      rw [if_pos rfl, if_neg hc, if_pos (List.mem_cons_self x K), add_zero]
    · rw [if_neg hx, zero_add]
      by_cases hm : x ∈ K
      · rw [if_pos hm, if_pos (List.mem_cons_of_mem c hm)]
      · rw [if_neg hm, if_neg (by simp [hx, hm])]

theorem soma_codes_flat (nat : String) (K : List String) (hK : K.Nodup) :
    ∀ P : List Mov, (∀ m ∈ P, (m.natureza == nat) = true → m.codigo ∈ K) →
      (K.map (fun c => soma_por_codigo P c nat)).sum =
        ((P.filter (fun m => m.natureza == nat)).map (fun m => m.valor)).sum := by
  intro P
  induction P with
  | nil =>
    intro _
    simp [soma_por_codigo]
  | cons m P ih =>
    intro hP
    have hsoma : ∀ c ∈ K, soma_por_codigo (m :: P) c nat =
        (if (m.codigo == c && m.natureza == nat) = true then m.valor else 0) +
          soma_por_codigo P c nat := by
      intro c _
      unfold soma_por_codigo
      rw [List.filter_cons]
      by_cases hc : (m.codigo == c && m.natureza == nat) = true
      · rw [if_pos hc, if_pos hc, List.map_cons, List.sum_cons]
      · rw [if_neg hc, if_neg hc, zero_add]
    rw [List.map_congr_left hsoma, List.sum_map_add]
    rw [ih (fun m2 hm2 h2 => hP m2 (List.mem_cons_of_mem m hm2) h2)]
    rw [List.filter_cons]
    by_cases hnat : (m.natureza == nat) = true
    · rw [if_pos hnat, List.map_cons, List.sum_cons]
      congr 1
      have hmem : m.codigo ∈ K := hP m (List.mem_cons_self m P) hnat
      have hcongr : ∀ c ∈ K,
          (if (m.codigo == c && m.natureza == nat) = true then m.valor else 0) =
            (if m.codigo = c then m.valor else 0) := by
        intro c _
        by_cases hcc : m.codigo = c
        · rw [if_pos hcc, if_pos (by simp [hcc, hnat])]
        · rw [if_neg hcc, if_neg (by simp [hcc])]
      rw [List.map_congr_left hcongr, sum_indicador m.codigo m.valor K hK, if_pos hmem]
    · rw [if_neg hnat]
      have hz : ∀ c ∈ K,
          (if (m.codigo == c && m.natureza == nat) = true then m.valor else 0) = (0 : ℚ) := by
        intro c _
        rw [if_neg (by simp [hnat])]
      rw [List.map_congr_left hz]
      simp

theorem movimentos_shape (plano : List Conta) (lancs : List Lancamento) :
    ∀ m ∈ movimentos plano lancs,
      ∃ p ∈ plano, m.codigo = p.codigo ∧ m.natureza = p.natureza := by
  intro m hm
  obtain ⟨l, hl, hm2⟩ := List.mem_flatMap.mp hm
  obtain ⟨p, hp, hm3⟩ := List.mem_map.mp hm2
  exact ⟨p, List.mem_of_mem_filter hp, by rw [← hm3], by rw [← hm3]⟩

theorem filtro_conciliados_subset (b : Bool) (movs : List Mov) :
    ∀ m ∈ filtro_conciliados b movs, m ∈ movs := by
  intro m hm
  unfold filtro_conciliados at hm
  by_cases hb : b = true
  · rw [if_pos hb] at hm
    exact List.mem_of_mem_filter hm
  · rw [if_neg hb] at hm
    exact hm

theorem periodo_codigo_mem (plano : List Conta) (lancs : List Lancamento)
    (HS : ∀ p ∈ plano, normalizar_codigo p.codigo = p.codigo)
    (HN : ∀ p ∈ plano, p.natureza = natureza_derivada p.codigo)
    (b : Bool) (dIni dFim : Int) (nat : String) :
    ∀ m ∈ filtro_periodo dIni dFim (filtro_conciliados b (movimentos plano lancs)),
      (m.natureza == nat) = true →
      m.codigo ∈ (codigos_plano plano).filter
        (fun c => natureza_de plano c == some nat) := by
  intro m hm hnat
  have hm1 : m ∈ movimentos plano lancs :=
    filtro_conciliados_subset b _ m (List.mem_of_mem_filter hm)
  obtain ⟨p, hp, hc, hn⟩ := movimentos_shape plano lancs m hm1
  have hcm : m.codigo ∈ codigos_plano plano :=
    (codes_mem plano m.codigo).mpr ⟨p, hp, by rw [HS p hp, hc]⟩
  have hde : natureza_de plano m.codigo = some (natureza_derivada m.codigo) :=
    natureza_de_eq plano HS HN hcm
  have hmn : m.natureza = nat := by simpa using hnat
  have hdm : natureza_derivada m.codigo = nat := by
    rw [hc, ← HN p hp, ← hn, hmn]
  rw [List.mem_filter]
  refine ⟨hcm, ?_⟩
  rw [hde, hdm]
  simp

/-- Claim C6 counterexample: the roll-up is NOT lossless for every chart of
accounts.  In a chart where a child's recorded nature disagrees with its
parent's (here `1.01.00.00` recorded as `Saída` under the `Entrada` root
`1.00.00.00` — impossible for charts built by the importer, which derives the
nature from the code, but the claim quantifies over every chart), the child is
excluded both from the roots of its nature and from its parent's same-nature
children, so its entries vanish from every root total: the Saída root totals
sum to 0 while the flat Saída period sum is 100. -/
theorem c6_counterexample :
    ((raizes [⟨"1.00.00.00", "a", "Entrada"⟩, ⟨"1.01.00.00", "b", "Saída"⟩] "Saída").map
      (fun r => total_conta [⟨"1.00.00.00", "a", "Entrada"⟩, ⟨"1.01.00.00", "b", "Saída"⟩]
        (filtro_periodo 0 10 (filtro_conciliados true
          (movimentos [⟨"1.00.00.00", "a", "Entrada"⟩, ⟨"1.01.00.00", "b", "Saída"⟩]
            [⟨5, 100, "Pago", "1.01.00.00"⟩]))) r "Saída")).sum ≠
    (((filtro_periodo 0 10 (filtro_conciliados true
        (movimentos [⟨"1.00.00.00", "a", "Entrada"⟩, ⟨"1.01.00.00", "b", "Saída"⟩]
          [⟨5, 100, "Pago", "1.01.00.00"⟩]))).filter
        (fun m => m.natureza == "Saída")).map (fun m => m.valor)).sum := by
  have hf : ((codigos_plano [⟨"1.00.00.00", "a", "Entrada"⟩,
      ⟨"1.01.00.00", "b", "Saída"⟩]).filter (fun c =>
        !tem_pai (codigos_plano [⟨"1.00.00.00", "a", "Entrada"⟩,
          ⟨"1.01.00.00", "b", "Saída"⟩]) c &&
        (natureza_de [⟨"1.00.00.00", "a", "Entrada"⟩,
          ⟨"1.01.00.00", "b", "Saída"⟩] c == some "Saída"))) = [] := by decide
  have hr : raizes [⟨"1.00.00.00", "a", "Entrada"⟩, ⟨"1.01.00.00", "b", "Saída"⟩]
      "Saída" = [] := by
    unfold raizes
    rw [hf]
    simp
  have hp : (filtro_periodo 0 10 (filtro_conciliados true
      (movimentos [⟨"1.00.00.00", "a", "Entrada"⟩, ⟨"1.01.00.00", "b", "Saída"⟩]
        [⟨5, 100, "Pago", "1.01.00.00"⟩]))).filter
      (fun m => m.natureza == "Saída") =
      [⟨5, 100, "Pago", "1.01.00.00", "Saída"⟩] := by decide
  rw [hr, hp]
  norm_num

/-- Claim C6 (amended): for every chart, entry set, configuration, period and
nature, (1) the roll-up total of a node is its own grouped period sum plus the
sum of the roll-up totals of its same-nature children — opposite-nature
children contribute nothing — unconditionally; and (2) provided every chart
code is stored whitespace-stripped and every chart row's nature is the one
derived from its code (both guaranteed by the importer, app.py:198-206), the
sum of the root totals of a nature equals the flat sum of all admissible
in-range entries of that nature: the roll-up is lossless. -/
theorem c6_rollup (plano : List Conta) (lancs : List Lancamento)
    (cfg : Config) (dIni dFim : Int) (nat : String) (periodo : List Mov)
    (HS : ∀ p ∈ plano, normalizar_codigo p.codigo = p.codigo)
    (HN : ∀ p ∈ plano, p.natureza = natureza_derivada p.codigo)
    (hper : periodo =
      filtro_periodo dIni dFim
        (filtro_conciliados cfg.considerar_somente_conciliados (movimentos plano lancs))) :
    (∀ cod : String, total_conta plano periodo cod nat =
        soma_por_codigo periodo cod nat +
        (((filhos (codigos_plano plano) cod).filter
            (fun ch => (natureza_de plano ch).getD nat == nat)).map
          (fun ch => total_conta plano periodo ch nat)).sum) ∧
      ((raizes plano nat).map (fun r => total_conta plano periodo r nat)).sum =
        ((periodo.filter (fun m => m.natureza == nat)).map (fun m => m.valor)).sum := by
  constructor
  · intro cod
    exact total_conta_eq plano periodo cod nat
  · have hflat := soma_codes_flat nat
      ((codigos_plano plano).filter (fun c => natureza_de plano c == some nat))
      ((List.nodup_dedup _).filter _) periodo
      (by
        rw [hper]
        exact periodo_codigo_mem plano lancs HS HN cfg.considerar_somente_conciliados
          dIni dFim nat)
    have htel := raizes_total_telescope plano periodo nat HS HN
    have hsum := ((camadas_perm plano nat HS HN).map
      (fun c => soma_por_codigo periodo c nat)).sum_eq
    rw [htel, ← hflat, ← hsum]
    simp only [List.map_append, List.sum_append]
    ring

/-- Witness for claim C6 on the specification's §8.6 scenario: the `Entrada`
root totals sum to the flat `Entrada` period sum (both 100). -/
theorem c6_rollup_witness :
    ((raizes [⟨"1.00.00.00", "Receitas", "Entrada"⟩, ⟨"1.01.00.00", "Vendas", "Entrada"⟩,
        ⟨"2.00.00.00", "Despesas", "Saída"⟩] "Entrada").map
      (fun r => total_conta
        [⟨"1.00.00.00", "Receitas", "Entrada"⟩, ⟨"1.01.00.00", "Vendas", "Entrada"⟩,
          ⟨"2.00.00.00", "Despesas", "Saída"⟩]
        (filtro_periodo 0 10 (filtro_conciliados true
          (movimentos
            [⟨"1.00.00.00", "Receitas", "Entrada"⟩, ⟨"1.01.00.00", "Vendas", "Entrada"⟩,
              ⟨"2.00.00.00", "Despesas", "Saída"⟩]
            [⟨5, 100, "Recebido", "1.01.00.00"⟩, ⟨6, 40, "Pago", "2.00.00.00"⟩])))
        r "Entrada")).sum =
    (((filtro_periodo 0 10 (filtro_conciliados true
        (movimentos
          [⟨"1.00.00.00", "Receitas", "Entrada"⟩, ⟨"1.01.00.00", "Vendas", "Entrada"⟩,
            ⟨"2.00.00.00", "Despesas", "Saída"⟩]
          [⟨5, 100, "Recebido", "1.01.00.00"⟩, ⟨6, 40, "Pago", "2.00.00.00"⟩]))).filter
      (fun m => m.natureza == "Entrada")).map (fun m => m.valor)).sum :=
  (c6_rollup
    [⟨"1.00.00.00", "Receitas", "Entrada"⟩, ⟨"1.01.00.00", "Vendas", "Entrada"⟩,
      ⟨"2.00.00.00", "Despesas", "Saída"⟩]
    [⟨5, 100, "Recebido", "1.01.00.00"⟩, ⟨6, 40, "Pago", "2.00.00.00"⟩]
    ⟨"Saldo + Entradas - Saídas", true, false, false, true⟩ 0 10 "Entrada"
    (filtro_periodo 0 10 (filtro_conciliados true
      (movimentos
        [⟨"1.00.00.00", "Receitas", "Entrada"⟩, ⟨"1.01.00.00", "Vendas", "Entrada"⟩,
          ⟨"2.00.00.00", "Despesas", "Saída"⟩]
        [⟨5, 100, "Recebido", "1.01.00.00"⟩, ⟨6, 40, "Pago", "2.00.00.00"⟩])))
    (by decide) (by decide) rfl).2

end Safari
